import Mathlib

/-!
# tableauxserver: request translation and response writing

A shallow embedding of `datarequest.go`, `conversion.go` and `handler.go`.

* Go `int64` fields are `Int`; the code only compares them with `0` and prints
  them, so no arithmetic can overflow.
* A Go `error` is its message (`String`); a `(T, error)` result is `Except String T`
  and a bare `error` result is `Option String` (`none` is `nil`).
* Effects (resolver calls, connector calls, calls on the response writer) are
  recorded, in program order, in a list of `Event`s that is passed through the
  code as explicit state.
-/

namespace tableauxserver

/-! ## Types of the tableaux library used by the server -/

namespace tableaux

/-- Modelled from the spec: `tableaux.Order`, the direction of an ordering
("ascending/descending"); only the constant `OrderDesc` is named by the source. -/
inductive Order where
  | OrderAsc
  | OrderDesc
  deriving DecidableEq, Repr

/-- Modelled from the spec: `tableaux.FilterMode`, "an enumerated predicate kind
(e.g., equals, contains)"; only the constant `FilterEquals` is named by the source. -/
inductive FilterMode where
  | FilterEquals
  | FilterContains
  deriving DecidableEq, Repr

end tableaux

namespace config

/-- Modelled from the spec: `config.TableSchemaColumn`, a column descriptor that is
"opaque beyond its path"; the source reads only its `Path` field. -/
structure TableSchemaColumn where
  Path : String
  deriving DecidableEq, Repr

/-- The `error` values that `ResolvedTableSchema.Column` may return. The source
compares the error once with `nil` (column mapping) and once with the sentinel
`config.ErrUnknownColumn` (order mapping), so the sentinel is kept apart from every
other error value. -/
inductive ColumnError where
  | ErrUnknownColumn
  | other (message : String)
  deriving DecidableEq, Repr

/-- The type `config.ResolvedTableSchema` as the server uses it: the method
`Columns()` and the method `Column(path)`, which yields a descriptor or an error.
The resolver is an external collaborator and is taken as a parameter. -/
structure ResolvedTableSchema where
  Columns : List TableSchemaColumn
  Column : String → Except ColumnError TableSchemaColumn

/-- The interface `config.SchemaMapper` as the handlers use it: the method
`ResolvedSchema(name)`, which yields a schema or an error. It is an external
collaborator and is taken as a parameter. -/
structure SchemaMapper where
  ResolvedSchema : String → Except String ResolvedTableSchema

end config

namespace datasource

/-- Modelled from the spec: `datasource.Filter`, "mode + value", as built by
`datasource.NewFilter(mode, value)`. -/
structure Filter where
  Mode : tableaux.FilterMode
  Value : String
  deriving DecidableEq, Repr

/-- Modelled from the spec: `datasource.FilterGroup`, "column path + ordered list of
Filters", as built by `datasource.NewFilterGroup(column, filters)`. -/
structure FilterGroup where
  Column : String
  Filters : List Filter
  deriving DecidableEq, Repr

/-- Modelled from the spec: `datasource.Order`, "column path + direction + optional
comparator override", as built by `datasource.NewOrder(column, dir, comparator)`.
The comparator is an opaque value here (`Nat`), `none` being Go's `nil`. -/
structure Order where
  Column : String
  Dir : tableaux.Order
  Comparator : Option Nat
  deriving DecidableEq, Repr

/-- Modelled from the spec: the constructor `datasource.NewFilter(mode, value)`, which
stores its two arguments. -/
def NewFilter (mode : tableaux.FilterMode) (value : String) : Filter :=
  { Mode := mode, Value := value }

/-- Modelled from the spec: the constructor `datasource.NewFilterGroup(column, filters)`,
which stores its two arguments. -/
def NewFilterGroup (column : String) (filters : List Filter) : FilterGroup :=
  { Column := column, Filters := filters }

/-- Modelled from the spec: the constructor `datasource.NewOrder(column, dir, comparator)`,
which stores its three arguments. -/
def NewOrder (column : String) (dir : tableaux.Order) (comparator : Option Nat) : Order :=
  { Column := column, Dir := dir, Comparator := comparator }

end datasource

/-! ## datarequest.go -/

/-- The DTO `ColumnSearch`. -/
structure ColumnSearch where
  Value : String
  Mode : tableaux.FilterMode
  deriving DecidableEq, Repr

/-- The DTO `Column`. -/
structure Column where
  Name : String
  Search : List ColumnSearch
  deriving DecidableEq, Repr

/-- The DTO `ColumnOrder`. -/
structure ColumnOrder where
  Column : String
  Dir : tableaux.Order
  deriving DecidableEq, Repr

/-- The DTO `GlobalSearch`. -/
structure GlobalSearch where
  Value : String
  deriving DecidableEq, Repr

/-- The DTO `DataRequest`. -/
structure DataRequest where
  Start : Int
  Draw : Int
  Length : Int
  Locale : String
  Columns : List Column
  Order : List ColumnOrder
  Search : GlobalSearch
  deriving DecidableEq, Repr

/-! ## handler.go: `ValidateDataRequest` -/

/-- The message of the check of `Length`. -/
def errLength : String := "parameter 'Length' must be positive and greater than 0"

/-- The message of the check of `Start`. -/
def errStart : String := "parameter 'Start' must be positive and greater or equal to 0"

/-- The message of the check of `Draw`. -/
def errDraw : String := "parameter 'Draw' must be positive and greater or equal to 0"

/-- The message of the check of `Columns`. -/
def errNoColumns : String := "no columns selected"

/-- The function `ValidateDataRequest` (handler.go 50-66); `none` is `nil`. -/
def ValidateDataRequest (dataRequest : DataRequest) : Option String :=
  if dataRequest.Length ≤ 0 then
    some errLength
  else if dataRequest.Start < 0 then
    some errStart
  else if dataRequest.Draw < 0 then
    some errDraw
  else if dataRequest.Columns.length = 0 then
    some errNoColumns
  else
    none

/-! ## The response writer and the record of effects -/

/-- A value stored in a row (`interface{}` in `map[string]interface{}`): Go's `nil`
or a scalar. Indexing a Go map with a key it does not hold yields `nil`. -/
inductive Value where
  | nil
  | bool (b : Bool)
  | int (i : Int)
  | str (s : String)
  deriving DecidableEq, Repr

/-- A row `map[string]interface{}`, given by its entries. A Go map holds a key at most
once, so the rows the code receives have pairwise distinct keys (`Row.WellFormed`). -/
abbrev Row := List (String × Value)

/-- The keys of a row are pairwise distinct. -/
def Row.WellFormed (columnData : Row) : Prop := (columnData.map Prod.fst).Nodup

instance (columnData : Row) : Decidable (Row.WellFormed columnData) := by
  unfold Row.WellFormed; infer_instance

/-- Whether the row holds the key. -/
def Row.has (columnData : Row) (key : String) : Bool := (columnData.lookup key).isSome

/-- The Go expression `columnData[key]`: the stored value, `nil` for a missing key. -/
def Row.get (columnData : Row) (key : String) : Value := (columnData.lookup key).getD Value.nil

/-- The Go expression `len(columnData)`. -/
def Row.len (columnData : Row) : Nat := columnData.length

/-- One call of `Write` on the response writer, by the expression that builds its
argument. -/
inductive Chunk where
  /-- A byte literal of the source, such as `","`. -/
  | lit (bytes : String)
  /-- The chunk `"\"" + column.Path + "\""`. -/
  | key (path : String)
  /-- The result of `json.Marshal(v)`. -/
  | value (v : Value)
  /-- The error envelope `fmt.Sprintf("{\"error\": %s, \"draw\": %d}", m, draw)` with
  `m` the result of `json.Marshal(message)`. -/
  | error (message : String) (draw : Int)
  /-- The chunk `fmt.Sprintf("\"draw\": %d, ", draw)`. -/
  | draw (draw : Int)
  /-- The chunk `fmt.Sprintf("\"recordsTotal\": %d,", totalCount)`. -/
  | recordsTotal (totalCount : Int)
  /-- The chunk `fmt.Sprintf("\"recordsFiltered\": %d}", filteredCount)`. -/
  | recordsFiltered (filteredCount : Int)
  deriving DecidableEq, Repr

/-- The two uses of `encoding/json` made by the server, taken as parameters:
`json.Marshal` on a row value and on an error message. -/
structure JsonEncoder where
  Marshal : Value → String
  MarshalString : String → String

/-- The bytes a chunk stands for. -/
def Chunk.bytes (enc : JsonEncoder) : Chunk → String
  | .lit b => b
  | .key path => "\"" ++ path ++ "\""
  | .value v => enc.Marshal v
  | .error message d =>
      "\x7b\"error\": " ++ enc.MarshalString message ++ ", \"draw\": " ++ toString d ++ "\x7d"
  | .draw d => "\"draw\": " ++ toString d ++ ", "
  | .recordsTotal n => "\"recordsTotal\": " ++ toString n ++ ","
  | .recordsFiltered n => "\"recordsFiltered\": " ++ toString n ++ "\x7d"

/-- The arguments of `Connector.ValidateRequest` and `Connector.FetchData`, in the
order of the call. -/
structure ConnectorArgs where
  columns : List config.TableSchemaColumn
  schema : config.ResolvedTableSchema
  filters : List datasource.FilterGroup
  orders : List datasource.Order
  globalSearch : String
  limit : Int
  offset : Int
  locale : String

/-- The stages of the pipeline of `handleRequest`. -/
inductive Stage where
  | Validator
  | ColumnMapping
  | FilterMapping
  | OrderMapping
  | ConnectorValidateRequest
  | ConnectorFetchData
  deriving DecidableEq, Repr

/-- An effect of the server, recorded when it happens. -/
inductive Event where
  /-- The handler calls `ValidateDataRequest` or one of the three mapping functions. -/
  | Call (stage : Stage)
  /-- The call `schema.Column(path)`. -/
  | Column (path : String)
  /-- The call `connector.ValidateRequest(...)`. -/
  | ValidateRequest (args : ConnectorArgs)
  /-- The call `connector.FetchData(...)`. -/
  | FetchData (args : ConnectorArgs)
  /-- The call `log.WithField("error", err).Error(message)`. -/
  | Log (message : String) (err : String)
  /-- The call `writer.WriteHeader(statusCode)`. -/
  | WriteHeader (statusCode : Nat)
  /-- The call `writer.Write(chunk)`. -/
  | Write (chunk : Chunk)
  /-- The call `writer.Header().Add(key, value)`. -/
  | HeaderAdd (key : String) (value : String)

/-- The record of effects so far; the response writer is part of it. -/
abbrev World := List Event

/-- The stage an event starts, if any. -/
def Event.stage : Event → Option Stage
  | .Call stage => some stage
  | .ValidateRequest _ => some Stage.ConnectorValidateRequest
  | .FetchData _ => some Stage.ConnectorFetchData
  | _ => none

/-- The stages started in a record, in order. -/
def stagesOf (w : World) : List Stage := w.filterMap Event.stage

/-- The paths the schema resolver was asked for, in order. -/
def resolverCalls (w : World) : List String :=
  w.filterMap fun e => match e with
    | .Column path => some path
    | _ => none

/-- Whether the event is a call of the schema resolver or of the connector. -/
def Event.isExternalCall : Event → Bool
  | .Column _ => true
  | .ValidateRequest _ => true
  | .FetchData _ => true
  | _ => false

/-- The status codes passed to `WriteHeader`, in order. -/
def statusCodes (w : World) : List Nat :=
  w.filterMap fun e => match e with
    | .WriteHeader statusCode => some statusCode
    | _ => none

/-- The chunks passed to `Write`, in order: the body of the response. -/
def body (w : World) : List Chunk :=
  w.filterMap fun e => match e with
    | .Write chunk => some chunk
    | _ => none

/-- The constant `http.StatusBadRequest`. -/
def StatusBadRequest : Nat := 400

/-- The constant `http.StatusNotFound`. -/
def StatusNotFound : Nat := 404

/-! ## conversion.go -/

/-- The loop of `MapDataRequestColumns` (conversion.go 14-23) over the columns still
to be resolved: every iteration calls `schema.Column`, and the first error ends the
function. -/
def MapDataRequestColumns.loop (schema : config.ResolvedTableSchema) :
    List Column → World → Except String (List config.TableSchemaColumn) × World
  | [], w => (.ok [], w)
  | column :: rest, w =>
    let columnPath := column.Name
    match schema.Column columnPath with
    | .error _ => (.error ("unknown column " ++ columnPath), w ++ [Event.Column columnPath])
    | .ok resolvedColumn =>
      match MapDataRequestColumns.loop schema rest (w ++ [Event.Column columnPath]) with
      | (.ok resolvedColumns, w1) => (.ok (resolvedColumn :: resolvedColumns), w1)
      | (.error err, w1) => (.error err, w1)

/-- The function `MapDataRequestColumns` (conversion.go 11-26). -/
def MapDataRequestColumns (dataRequest : DataRequest) (schema : config.ResolvedTableSchema)
    (w : World) : Except String (List config.TableSchemaColumn) × World :=
  MapDataRequestColumns.loop schema dataRequest.Columns w

/-- The loop of `MapDataRequestOrders` (conversion.go 32-40): only the error
`config.ErrUnknownColumn` ends the function; after any other outcome of
`schema.Column` the order is built. -/
def MapDataRequestOrders.loop (schema : config.ResolvedTableSchema) :
    List ColumnOrder → World → Except String (List datasource.Order) × World
  | [], w => (.ok [], w)
  | order :: rest, w =>
    let columnPath := order.Column
    match schema.Column columnPath with
    | .error config.ColumnError.ErrUnknownColumn =>
      (.error ("unknown order column " ++ columnPath), w ++ [Event.Column columnPath])
    | _ =>
      match MapDataRequestOrders.loop schema rest (w ++ [Event.Column columnPath]) with
      | (.ok orders, w1) => (.ok (datasource.NewOrder order.Column order.Dir none :: orders), w1)
      | (.error err, w1) => (.error err, w1)

/-- The function `MapDataRequestOrders` (conversion.go 29-43). -/
def MapDataRequestOrders (dataRequest : DataRequest) (schema : config.ResolvedTableSchema)
    (w : World) : Except String (List datasource.Order) × World :=
  MapDataRequestOrders.loop schema dataRequest.Order w

/-- The inner loop of `MapDataRequestFilters` (conversion.go 51-55). -/
def MapDataRequestFilters.filters (search : List ColumnSearch) : List datasource.Filter :=
  search.map fun s => datasource.NewFilter s.Mode s.Value

/-- The outer loop of `MapDataRequestFilters` (conversion.go 49-59), with the slice
`filterGroups` built so far. -/
def MapDataRequestFilters.loop : List Column → List datasource.FilterGroup →
    List datasource.FilterGroup
  | [], filterGroups => filterGroups
  | column :: rest, filterGroups =>
    if column.Search.length > 0 then
      MapDataRequestFilters.loop rest
        (filterGroups ++
          [datasource.NewFilterGroup column.Name (MapDataRequestFilters.filters column.Search)])
    else
      MapDataRequestFilters.loop rest filterGroups

/-- The function `MapDataRequestFilters` (conversion.go 46-62). -/
def MapDataRequestFilters (dataRequest : DataRequest) :
    Except String (List datasource.FilterGroup) :=
  .ok (MapDataRequestFilters.loop dataRequest.Columns [])

/-! ## handler.go: writing -/

/-- The function `writeErrorResponse` (handler.go 224-228). -/
def writeErrorResponse (writer : World) (statusCode : Nat) (draw : Int) (message : String) :
    World :=
  writer ++ [Event.WriteHeader statusCode] ++ [Event.Write (Chunk.error message draw)]

/-- The loop of `writeRow` (handler.go 234-247); `count` is the number of columns
written before this iteration. -/
def writeRow.loop (columnData : Row) : List config.TableSchemaColumn → Nat → World → World
  | [], _, writer => writer
  | column :: rest, count, writer =>
    let writer := writer ++ [Event.Write (Chunk.key column.Path)]
    let writer := writer ++ [Event.Write (Chunk.lit ":")]
    let writer := writer ++ [Event.Write (Chunk.value (columnData.get column.Path))]
    let count := count + 1
    let writer := if count < columnData.len then writer ++ [Event.Write (Chunk.lit ",")] else writer
    writeRow.loop columnData rest count writer

/-- The function `writeRow` (handler.go 230-250). -/
def writeRow (columns : List config.TableSchemaColumn) (columnData : Row) (writer : World) :
    World :=
  let writer := writer ++ [Event.Write (Chunk.lit "\x7b")]
  let writer := writeRow.loop columnData columns 0 writer
  writer ++ [Event.Write (Chunk.lit "\x7d")]

/-! ## handler.go: `handleRequest` -/

/-- The interface `datasource.Connector`, an external collaborator taken as a
parameter. `FetchData` yields the rows, `totalCount` and `filteredCount`, or an
error. -/
structure Connector where
  ValidateRequest : ConnectorArgs → Option String
  FetchData : ConnectorArgs → Except String (List Row × Int × Int)

/-- The struct `tableauxServerWrapper`. Only the two entry handlers use the schema
mapper; where it is left out, it is a mapper that knows no schema. -/
structure tableauxServerWrapper where
  connector : Connector
  schemaMapper : config.SchemaMapper := { ResolvedSchema := fun _ => .error "unknown schema" }

/-- The loop over the rows in `handleRequest` (handler.go 210-215); `i` is the index
of the first row of the list and `n` is `len(*result)`. -/
def handleRequest.rows (columns : List config.TableSchemaColumn) (n : Nat) :
    List Row → Nat → World → World
  | [], _, writer => writer
  | row :: rest, i, writer =>
    let writer := writeRow columns row writer
    let writer :=
      if (i : Int) < (n : Int) - 1 then writer ++ [Event.Write (Chunk.lit ",")] else writer
    handleRequest.rows columns n rest (i + 1) writer

/-- The method `handleRequest` (handler.go 140-222). -/
def handleRequest (th : tableauxServerWrapper) (writer : World) (dataRequest : DataRequest)
    (schema : config.ResolvedTableSchema) : World :=
  let writer := writer ++ [Event.Call Stage.Validator]
  match ValidateDataRequest dataRequest with
  | some err => writeErrorResponse writer StatusBadRequest dataRequest.Draw err
  | none =>
  match MapDataRequestColumns dataRequest schema (writer ++ [Event.Call Stage.ColumnMapping]) with
  | (.error err, writer) => writeErrorResponse writer StatusBadRequest dataRequest.Draw err
  | (.ok columns, writer) =>
  let writer := writer ++ [Event.Call Stage.FilterMapping]
  match MapDataRequestFilters dataRequest with
  | .error err => writeErrorResponse writer StatusBadRequest dataRequest.Draw err
  | .ok filters =>
  match MapDataRequestOrders dataRequest schema (writer ++ [Event.Call Stage.OrderMapping]) with
  | (.error err, writer) => writeErrorResponse writer StatusBadRequest dataRequest.Draw err
  | (.ok orders, writer) =>
  let args : ConnectorArgs :=
    { columns := columns, schema := schema, filters := filters, orders := orders,
      globalSearch := dataRequest.Search.Value, limit := 10, offset := 0,
      locale := dataRequest.Locale }
  let writer := writer ++ [Event.ValidateRequest args]
  match th.connector.ValidateRequest args with
  | some valErr =>
    let writer := writer ++ [Event.Log "Failed to validate request" valErr]
    writer ++ [Event.WriteHeader StatusBadRequest]
  | none =>
  let writer := writer ++ [Event.FetchData args]
  match th.connector.FetchData args with
  | .error err => writeErrorResponse writer StatusBadRequest dataRequest.Draw err
  | .ok (result, totalCount, filteredCount) =>
  let writer := writer ++ [Event.Write (Chunk.lit "\x7b\"data\": [")]
  let writer := handleRequest.rows columns result.length result 0 writer
  let writer := writer ++ [Event.Write (Chunk.lit "],")]
  let writer := writer ++ [Event.Write (Chunk.draw dataRequest.Draw)]
  let writer := writer ++ [Event.Write (Chunk.recordsTotal totalCount)]
  writer ++ [Event.Write (Chunk.recordsFiltered filteredCount)]

/-! ## handler.go: the two entry handlers -/

/-- What the handlers read of a `*http.Request`: the route variable
`mux.Vars(req)["schema"]` and the body. -/
structure Request where
  schema : String
  Body : String

/-- The columns that `simpleDataHandler` requests (handler.go 86-95): one per column
of the schema, with one search entry on the column of the designated path. -/
def simpleDataHandler.requestColumns (columns : List config.TableSchemaColumn) :
    List Column :=
  columns.map fun column =>
    if column.Path = "dosemeter_assignedEmployee_awstEmployeeNumber" then
      { Name := column.Path,
        Search := [{ Value := "MA0680872", Mode := tableaux.FilterMode.FilterEquals }] }
    else
      { Name := column.Path, Search := [] }

/-- The request that `simpleDataHandler` builds (handler.go 97-108); the fields the
source does not set have Go's zero value. -/
def simpleDataHandler.dataRequest (schema : config.ResolvedTableSchema) : DataRequest :=
  { Start := 0,
    Draw := 0,
    Length := 10,
    Locale := "de",
    Columns := simpleDataHandler.requestColumns schema.Columns,
    Order := [{ Column := "dosemeter_assignedEmployee_dosemeters",
                Dir := tableaux.Order.OrderDesc }],
    Search := { Value := "" } }

/-- The method `simpleDataHandler` (handler.go 73-113). -/
def simpleDataHandler (th : tableauxServerWrapper) (writer : World) (req : Request) : World :=
  let writer := writer ++ [Event.HeaderAdd "Content-Type" "application/json"]
  match th.schemaMapper.ResolvedSchema req.schema with
  | .error _ => writeErrorResponse writer StatusNotFound 0 "Unknown schema"
  | .ok schema => handleRequest th writer (simpleDataHandler.dataRequest schema) schema

/-- The method `dataHandler` (handler.go 115-138). The JSON decoder of `encoding/json`
is taken as the parameter `decode`, from the body to a request or an error. -/
def dataHandler (th : tableauxServerWrapper) (decode : String → Except String DataRequest)
    (writer : World) (req : Request) : World :=
  let writer := writer ++ [Event.HeaderAdd "Content-Type" "application/json"]
  match th.schemaMapper.ResolvedSchema req.schema with
  | .error _ => writeErrorResponse writer StatusNotFound 0 "Unknown schema"
  | .ok schema =>
    match decode req.Body with
    | .error _ => writeErrorResponse writer StatusBadRequest 0 "Failed to parse request"
    | .ok dataRequest => handleRequest th writer dataRequest schema

/-! ## Vocabulary of the statements -/

/-- Whether `schema.Column(path)` yields a descriptor (`err == nil`). -/
def resolves (schema : config.ResolvedTableSchema) (path : String) : Bool :=
  (schema.Column path).isOk

/-- The paths written as keys, in order. -/
def keysOf (chunks : List Chunk) : List String :=
  chunks.filterMap fun c => match c with
    | .key path => some path
    | _ => none

/-- Whether `schema.Column(path)` yields the error `config.ErrUnknownColumn`, the
condition `err == config.ErrUnknownColumn` of `MapDataRequestOrders`. -/
def unknownColumn (schema : config.ResolvedTableSchema) (path : String) : Bool :=
  match schema.Column path with
  | .error config.ColumnError.ErrUnknownColumn => true
  | _ => false

/-- Modelled from the spec: the contract of the column resolver, which "returns a column
descriptor or a not-found failure" (`ResolveColumn(schemaName, path) -> ResolvedColumn |
NotFoundError`): the only error of `schema.Column` is `config.ErrUnknownColumn`. -/
def resolverContract (schema : config.ResolvedTableSchema) : Prop :=
  ∀ (path : String) (e : config.ColumnError),
    schema.Column path = .error e → e = config.ColumnError.ErrUnknownColumn

/-- The stages of `handleRequest` in the order of the source. -/
def pipeline : List Stage :=
  [Stage.Validator, Stage.ColumnMapping, Stage.FilterMapping, Stage.OrderMapping,
    Stage.ConnectorValidateRequest, Stage.ConnectorFetchData]

/-- The stages that run when they are started in the given order and nothing is
started after the first stage that fails. -/
def runStages (fails : Stage → Bool) : List Stage → List Stage
  | [] => []
  | stage :: rest => if fails stage then [stage] else stage :: runStages fails rest

/-- The value of an `Except`, or the given default. -/
def okOr {α : Type} (default : α) : Except String α → α
  | .ok a => a
  | .error _ => default

/-- The arguments `handleRequest` passes to both connector calls (handler.go 170-179
and 186-195), from the results of the three mapping functions. -/
def connectorArgs (dataRequest : DataRequest) (schema : config.ResolvedTableSchema) :
    ConnectorArgs :=
  { columns := okOr [] (MapDataRequestColumns dataRequest schema []).1,
    schema := schema,
    filters := okOr [] (MapDataRequestFilters dataRequest),
    orders := okOr [] (MapDataRequestOrders dataRequest schema []).1,
    globalSearch := dataRequest.Search.Value,
    limit := 10,
    offset := 0,
    locale := dataRequest.Locale }

/-- Whether a stage of the pipeline fails on the request: the function of the stage
returns an error. -/
def stageFails (th : tableauxServerWrapper) (dataRequest : DataRequest)
    (schema : config.ResolvedTableSchema) : Stage → Bool
  | .Validator => (ValidateDataRequest dataRequest).isSome
  | .ColumnMapping => !(MapDataRequestColumns dataRequest schema []).1.isOk
  | .FilterMapping => !(MapDataRequestFilters dataRequest).isOk
  | .OrderMapping => !(MapDataRequestOrders dataRequest schema []).1.isOk
  | .ConnectorValidateRequest =>
    (th.connector.ValidateRequest (connectorArgs dataRequest schema)).isSome
  | .ConnectorFetchData => !(th.connector.FetchData (connectorArgs dataRequest schema)).isOk

/-- The calls of the connector in a record, in order. -/
def connectorCalls (w : World) : World :=
  w.filter fun e => match e with
    | .ValidateRequest _ => true
    | .FetchData _ => true
    | _ => false

/-- The chunks written for one row: the body of `writeRow` on an empty record. -/
def rowChunks (columns : List config.TableSchemaColumn) (columnData : Row) : List Chunk :=
  body (writeRow columns columnData [])

/-- The bytes of the body of a record, for a JSON encoder. -/
def bytesOf (enc : JsonEncoder) (w : World) : String :=
  String.join ((body w).map (Chunk.bytes enc))

/-- The chunk with the echoed draw replaced by `d`; only the error envelope and the
draw field carry a draw. -/
def Chunk.withDraw (d : Int) : Chunk → Chunk
  | .error message _ => .error message d
  | .draw _ => .draw d
  | c => c

/-- The event with the echoed draw replaced by `d`. -/
def Event.withDraw (d : Int) : Event → Event
  | .Write chunk => .Write (chunk.withDraw d)
  | e => e

/-! ## Concrete inputs -/

/-- A schema with the columns "age" and "name"; its resolver does not know other
paths, and fails with an error of its own for the path "broken". -/
def exampleSchema : config.ResolvedTableSchema :=
  { Columns := [{ Path := "age" }, { Path := "name" }],
    Column := fun path =>
      if path = "age" then .ok { Path := "age" }
      else if path = "name" then .ok { Path := "name" }
      else if path = "broken" then .error (config.ColumnError.other "schema unavailable")
      else .error config.ColumnError.ErrUnknownColumn }

/-- A request for the columns "age" and "name", ordered by "age", with draw 5. -/
def exampleRequest : DataRequest :=
  { Start := 0, Draw := 5, Length := 10, Locale := "de",
    Columns := [{ Name := "age", Search := [] },
      { Name := "name", Search := [{ Value := "Ada", Mode := tableaux.FilterMode.FilterEquals }] }],
    Order := [{ Column := "age", Dir := tableaux.Order.OrderDesc }],
    Search := { Value := "" } }

/-- The example request with the unknown column "ageee" between its two columns. -/
def unknownColumnRequest : DataRequest :=
  { exampleRequest with
    Columns := [{ Name := "age", Search := [] }, { Name := "ageee", Search := [] },
      { Name := "name", Search := [] }] }

/-- The example request ordered by "broken", a path for which the resolver fails
with an error other than `config.ErrUnknownColumn`. -/
def brokenOrderRequest : DataRequest :=
  { exampleRequest with Order := [{ Column := "broken", Dir := tableaux.Order.OrderDesc }] }

/-- The example request ordered by "name" and then by the unknown path "ageee". -/
def unknownOrderRequest : DataRequest :=
  { exampleRequest with
    Order := [{ Column := "name", Dir := tableaux.Order.OrderAsc },
      { Column := "ageee", Dir := tableaux.Order.OrderDesc }] }

/-- A connector that accepts every request and returns two rows. -/
def exampleConnector : Connector :=
  { ValidateRequest := fun _ => none,
    FetchData := fun _ =>
      .ok ([[("age", Value.int 36), ("name", Value.str "Ada")],
            [("age", Value.int 41), ("name", Value.str "Alan")]], 2, 2) }

/-- A connector whose `ValidateRequest` rejects every request. -/
def rejectingConnector : Connector :=
  { ValidateRequest := fun _ => some "unsupported filter",
    FetchData := fun _ => .ok ([], 0, 0) }

/-- The example request with length 0 and without columns. -/
def invalidRequest : DataRequest :=
  { exampleRequest with Length := 0, Columns := [] }

/-- The example request with the unknown column "ageee" and the unknown order
column "nameee". -/
def unknownColumnAndOrderRequest : DataRequest :=
  { unknownColumnRequest with
    Order := [{ Column := "nameee", Dir := tableaux.Order.OrderAsc }] }

/-- A connector that accepts every request and whose `FetchData` fails. -/
def failingConnector : Connector :=
  { ValidateRequest := fun _ => none,
    FetchData := fun _ => .error "connection lost" }

/-- A connector that accepts every request and returns no row, with the counts 7
and 0. -/
def emptyConnector : Connector :=
  { ValidateRequest := fun _ => none,
    FetchData := fun _ => .ok ([], 7, 0) }

/-- A JSON encoder for the concrete inputs; it writes null for Go's `nil`. -/
def exampleEncoder : JsonEncoder :=
  { Marshal := fun v => match v with
      | .nil => "null"
      | .bool b => toString b
      | .int i => toString i
      | .str s => "\"" ++ s ++ "\"",
    MarshalString := fun s => "\"" ++ s ++ "\"" }

/-- A schema mapper that knows the schema "people" only. -/
def exampleSchemaMapper : config.SchemaMapper :=
  { ResolvedSchema := fun name =>
      if name = "people" then .ok exampleSchema else .error "schema not found" }

/-- A decoder that reads the body "request" as the example request and fails on
every other body. -/
def exampleDecode (body : String) : Except String DataRequest :=
  if body = "request" then .ok exampleRequest else .error "unexpected end of JSON input"

/-- The example request with draw -1. -/
def negativeDrawRequest : DataRequest :=
  { exampleRequest with Draw := -1 }

/-- A schema with the designated column of `simpleDataHandler` between two others. -/
def dosemeterSchema : config.ResolvedTableSchema :=
  { Columns := [{ Path := "dosemeter_id" },
      { Path := "dosemeter_assignedEmployee_awstEmployeeNumber" },
      { Path := "dosemeter_assignedEmployee_dosemeters" }],
    Column := fun path =>
      if path = "dosemeter_id" ∨ path = "dosemeter_assignedEmployee_awstEmployeeNumber" ∨
          path = "dosemeter_assignedEmployee_dosemeters" then
        .ok { Path := path }
      else .error config.ColumnError.ErrUnknownColumn }

/-- A schema without columns. -/
def emptySchema : config.ResolvedTableSchema :=
  { Columns := [],
    Column := fun _ => .error config.ColumnError.ErrUnknownColumn }

/-- A schema with the columns "age" and "name" whose resolver answers every other
path with `config.ErrUnknownColumn`. -/
def peopleSchema : config.ResolvedTableSchema :=
  { Columns := [{ Path := "age" }, { Path := "name" }],
    Column := fun path =>
      if path = "age" then .ok { Path := "age" }
      else if path = "name" then .ok { Path := "name" }
      else .error config.ColumnError.ErrUnknownColumn }

/-! ## Theorems -/

/-! ### General facts about lists -/

/-- A list with an element that fails `p` splits at the first such element. -/
theorem exists_first_failing {α : Type} (p : α → Bool) :
    ∀ l : List α, (∃ x ∈ l, p x = false) →
      ∃ pre bad post, l = pre ++ bad :: post ∧ (∀ x ∈ pre, p x = true) ∧ p bad = false
  | [], h => by
    obtain ⟨x, hx, _⟩ := h
    cases hx
  | a :: l, h => by
    by_cases ha : p a = false
    · exact ⟨[], a, l, rfl, by simp, ha⟩
    · have hl : ∃ x ∈ l, p x = false := by
        obtain ⟨x, hx, hpx⟩ := h
        rcases List.mem_cons.mp hx with rfl | hx
        · exact absurd hpx ha
        · exact ⟨x, hx, hpx⟩
      obtain ⟨pre, bad, post, hsplit, hpre, hbad⟩ := exists_first_failing p l hl
      refine ⟨a :: pre, bad, post, by simp [hsplit], ?_, hbad⟩
      intro x hx
      rcases List.mem_cons.mp hx with rfl | hx
      · simpa using ha
      · exact hpre x hx

/-! ### `ValidateDataRequest` -/

/-- The function `ValidateDataRequest` accepts a request exactly when all four
checks pass. -/
theorem ValidateDataRequest_valid_iff (dataRequest : DataRequest) :
    ValidateDataRequest dataRequest = none ↔
      (0 < dataRequest.Length ∧ 0 ≤ dataRequest.Start ∧ 0 ≤ dataRequest.Draw ∧
        dataRequest.Columns ≠ []) := by
  unfold ValidateDataRequest
  constructor
  · intro h
    split_ifs at h with h1 h2 h3 h4
    refine ⟨by omega, by omega, by omega, ?_⟩
    intro hc
    exact h4 (by simp [hc])
  · rintro ⟨h1, h2, h3, h4⟩
    have h5 : ¬ dataRequest.Columns.length = 0 := by
      simpa [List.length_eq_zero] using h4
    rw [if_neg (by omega), if_neg (by omega), if_neg (by omega), if_neg h5]

/-- C1: `ValidateDataRequest` succeeds exactly when `length > 0`, `start >= 0`,
`draw >= 0` and `columns` is non-empty; otherwise it returns the one error of the
first failing check in the order length, start, draw, columns, and the four
messages are pairwise different. -/
theorem ValidateDataRequest_first_failing_check (dataRequest : DataRequest) :
    (ValidateDataRequest dataRequest = none ↔
      (0 < dataRequest.Length ∧ 0 ≤ dataRequest.Start ∧ 0 ≤ dataRequest.Draw ∧
        dataRequest.Columns ≠ [])) ∧
    (dataRequest.Length ≤ 0 → ValidateDataRequest dataRequest = some errLength) ∧
    (0 < dataRequest.Length → dataRequest.Start < 0 →
      ValidateDataRequest dataRequest = some errStart) ∧
    (0 < dataRequest.Length → 0 ≤ dataRequest.Start → dataRequest.Draw < 0 →
      ValidateDataRequest dataRequest = some errDraw) ∧
    (0 < dataRequest.Length → 0 ≤ dataRequest.Start → 0 ≤ dataRequest.Draw →
      dataRequest.Columns = [] → ValidateDataRequest dataRequest = some errNoColumns) ∧
    [errLength, errStart, errDraw, errNoColumns].Nodup := by
  refine ⟨ValidateDataRequest_valid_iff dataRequest, ?_, ?_, ?_, ?_, by decide⟩
  · intro h1
    unfold ValidateDataRequest
    rw [if_pos h1]
  · intro h1 h2
    unfold ValidateDataRequest
    rw [if_neg (by omega), if_pos h2]
  · intro h1 h2 h3
    unfold ValidateDataRequest
    rw [if_neg (by omega), if_neg (by omega), if_pos h3]
  · intro h1 h2 h3 h4
    unfold ValidateDataRequest
    rw [if_neg (by omega), if_neg (by omega), if_neg (by omega), if_pos (by simp [h4])]

/-! ### `MapDataRequestColumns` -/

/-- A path resolves exactly when `schema.Column` yields some descriptor. -/
theorem resolves_iff (schema : config.ResolvedTableSchema) (path : String) :
    resolves schema path = true ↔ ∃ r, schema.Column path = .ok r := by
  unfold resolves
  cases h : schema.Column path <;> simp [Except.isOk, Except.toBool]

/-- A path does not resolve exactly when `schema.Column` yields some error. -/
theorem not_resolves_iff (schema : config.ResolvedTableSchema) (path : String) :
    resolves schema path = false ↔ ∃ e, schema.Column path = .error e := by
  unfold resolves
  cases h : schema.Column path <;> simp [Except.isOk, Except.toBool]

/-- When every column resolves, the loop returns the descriptors in order and asks
the resolver once per column. -/
theorem MapDataRequestColumns_loop_ok (schema : config.ResolvedTableSchema) :
    ∀ (columns : List Column) (w : World),
      (∀ c ∈ columns, resolves schema c.Name = true) →
      ∃ resolved, MapDataRequestColumns.loop schema columns w =
          (.ok resolved, w ++ columns.map fun c => Event.Column c.Name) ∧
        resolved.map Except.ok = columns.map fun c => schema.Column c.Name
  | [], w, _ => ⟨[], by simp [MapDataRequestColumns.loop], rfl⟩
  | c :: columns, w, h => by
    obtain ⟨r, hr⟩ := (resolves_iff schema c.Name).mp (h c (List.mem_cons_self _ _))
    obtain ⟨resolved, hloop, hmap⟩ :=
      MapDataRequestColumns_loop_ok schema columns (w ++ [Event.Column c.Name])
        (fun x hx => h x (List.mem_cons_of_mem _ hx))
    refine ⟨r :: resolved, ?_, ?_⟩
    · simp only [MapDataRequestColumns.loop, hr, hloop]
      simp
    · simp [hr, hmap]

/-- When the columns before `bad` resolve and `bad` does not, the loop fails on
`bad` and has asked the resolver for the columns up to `bad` only. -/
theorem MapDataRequestColumns_loop_error (schema : config.ResolvedTableSchema)
    (bad : Column) (post : List Column) (hbad : resolves schema bad.Name = false) :
    ∀ (pre : List Column) (w : World),
      (∀ c ∈ pre, resolves schema c.Name = true) →
      MapDataRequestColumns.loop schema (pre ++ bad :: post) w =
        (.error ("unknown column " ++ bad.Name),
          w ++ (pre ++ [bad]).map fun c => Event.Column c.Name)
  | [], w, _ => by
    obtain ⟨e, he⟩ := (not_resolves_iff schema bad.Name).mp hbad
    simp [MapDataRequestColumns.loop, he]
  | c :: pre, w, h => by
    obtain ⟨r, hr⟩ := (resolves_iff schema c.Name).mp (h c (List.mem_cons_self _ _))
    have hloop := MapDataRequestColumns_loop_error schema bad post hbad pre
      (w ++ [Event.Column c.Name]) (fun x hx => h x (List.mem_cons_of_mem _ hx))
    rw [List.cons_append]
    simp only [MapDataRequestColumns.loop, hr]
    rw [hloop]
    simp

/-- C2: when every requested column name resolves, `MapDataRequestColumns` succeeds
with a list of the same length as the request's columns whose i-th element is the
resolver's result for the i-th column name. -/
theorem MapDataRequestColumns_resolved_in_order (dataRequest : DataRequest)
    (schema : config.ResolvedTableSchema) (w : World)
    (h : ∀ c ∈ dataRequest.Columns, resolves schema c.Name = true) :
    ∃ resolved, (MapDataRequestColumns dataRequest schema w).1 = .ok resolved ∧
      resolved.length = dataRequest.Columns.length ∧
      resolved.map Except.ok = dataRequest.Columns.map fun c => schema.Column c.Name := by
  obtain ⟨resolved, hloop, hmap⟩ :=
    MapDataRequestColumns_loop_ok schema dataRequest.Columns w h
  refine ⟨resolved, by simp [MapDataRequestColumns, hloop], ?_, hmap⟩
  have hlen := congrArg List.length hmap
  simpa using hlen

/-- The example request against the example schema: both columns resolve, and the
result holds the two descriptors in the order of the request. -/
theorem MapDataRequestColumns_resolved_in_order_witness :
    (∀ c ∈ exampleRequest.Columns, resolves exampleSchema c.Name = true) ∧
    ∃ resolved, (MapDataRequestColumns exampleRequest exampleSchema []).1 = .ok resolved ∧
      resolved.length = exampleRequest.Columns.length ∧
      resolved.map Except.ok = exampleRequest.Columns.map fun c => exampleSchema.Column c.Name :=
  ⟨by decide, MapDataRequestColumns_resolved_in_order exampleRequest exampleSchema [] (by decide)⟩

/-- C3: when some requested column name does not resolve, `MapDataRequestColumns`
fails without columns, its message is "unknown column " followed by the name of the
first unresolved column, and the resolver has been asked for the columns up to that
one and for none after it. -/
theorem MapDataRequestColumns_first_unresolved (dataRequest : DataRequest)
    (schema : config.ResolvedTableSchema) (w : World)
    (h : ∃ c ∈ dataRequest.Columns, resolves schema c.Name = false) :
    ∃ pre bad post, dataRequest.Columns = pre ++ bad :: post ∧
      (∀ c ∈ pre, resolves schema c.Name = true) ∧ resolves schema bad.Name = false ∧
      (MapDataRequestColumns dataRequest schema w).1 = .error ("unknown column " ++ bad.Name) ∧
      (MapDataRequestColumns dataRequest schema w).2 =
        w ++ (pre ++ [bad]).map fun c => Event.Column c.Name := by
  obtain ⟨pre, bad, post, hsplit, hpre, hbad⟩ :=
    exists_first_failing (fun c : Column => resolves schema c.Name) dataRequest.Columns h
  refine ⟨pre, bad, post, hsplit, hpre, hbad, ?_, ?_⟩
  · simp only [MapDataRequestColumns, hsplit]
    rw [MapDataRequestColumns_loop_error schema bad post hbad pre w hpre]
  · simp only [MapDataRequestColumns, hsplit]
    rw [MapDataRequestColumns_loop_error schema bad post hbad pre w hpre]

/-- The request with the unknown column "ageee" against the example schema. -/
theorem MapDataRequestColumns_first_unresolved_witness :
    (∃ c ∈ unknownColumnRequest.Columns, resolves exampleSchema c.Name = false) ∧
    ∃ pre bad post, unknownColumnRequest.Columns = pre ++ bad :: post ∧
      (∀ c ∈ pre, resolves exampleSchema c.Name = true) ∧
      resolves exampleSchema bad.Name = false ∧
      (MapDataRequestColumns unknownColumnRequest exampleSchema []).1 =
        .error ("unknown column " ++ bad.Name) ∧
      (MapDataRequestColumns unknownColumnRequest exampleSchema []).2 =
        [] ++ (pre ++ [bad]).map fun c => Event.Column c.Name :=
  ⟨by decide, MapDataRequestColumns_first_unresolved unknownColumnRequest exampleSchema []
    (by decide)⟩

/-! ### `MapDataRequestFilters` -/

/-- The outer loop appends, to what it was given, one group per column that has a
search entry. -/
theorem MapDataRequestFilters_loop_eq :
    ∀ (columns : List Column) (filterGroups : List datasource.FilterGroup),
      MapDataRequestFilters.loop columns filterGroups =
        filterGroups ++ (columns.filter fun c => decide (0 < c.Search.length)).map fun c =>
          { Column := c.Name,
            Filters := c.Search.map fun s => { Mode := s.Mode, Value := s.Value } }
  | [], filterGroups => by simp [MapDataRequestFilters.loop]
  | c :: columns, filterGroups => by
    by_cases hc : 0 < c.Search.length
    · simp [MapDataRequestFilters.loop, hc, MapDataRequestFilters_loop_eq columns,
        datasource.NewFilterGroup, datasource.NewFilter, MapDataRequestFilters.filters]
    · simp [MapDataRequestFilters.loop, hc, MapDataRequestFilters_loop_eq columns]

/-- C4: `MapDataRequestFilters` never fails; it returns one `FilterGroup` per column
that carries a search entry, in the order of the columns, keyed by the column's name
and holding one `Filter` (mode, value) per search entry in the order of the entries;
a column without search entries contributes no group. -/
theorem MapDataRequestFilters_groups (dataRequest : DataRequest) :
    MapDataRequestFilters dataRequest =
      .ok ((dataRequest.Columns.filter fun c => decide (0 < c.Search.length)).map fun c =>
        { Column := c.Name,
          Filters := c.Search.map fun s => { Mode := s.Mode, Value := s.Value } }) := by
  simp [MapDataRequestFilters, MapDataRequestFilters_loop_eq]

/-! ### `MapDataRequestOrders` -/

/-- A path that resolves does not yield `config.ErrUnknownColumn`. -/
theorem unknownColumn_of_resolves (schema : config.ResolvedTableSchema) (path : String)
    (h : resolves schema path = true) : unknownColumn schema path = false := by
  obtain ⟨r, hr⟩ := (resolves_iff schema path).mp h
  simp [unknownColumn, hr]

/-- One iteration of the loop of `MapDataRequestOrders`, by the condition
`err == config.ErrUnknownColumn`. -/
theorem MapDataRequestOrders_loop_cons (schema : config.ResolvedTableSchema)
    (o : ColumnOrder) (rest : List ColumnOrder) (w : World) :
    MapDataRequestOrders.loop schema (o :: rest) w =
      if unknownColumn schema o.Column = true then
        (.error ("unknown order column " ++ o.Column), w ++ [Event.Column o.Column])
      else
        match MapDataRequestOrders.loop schema rest (w ++ [Event.Column o.Column]) with
        | (.ok orders, w1) => (.ok (datasource.NewOrder o.Column o.Dir none :: orders), w1)
        | (.error err, w1) => (.error err, w1) := by
  unfold unknownColumn
  cases hc : schema.Column o.Column with
  | ok r => simp [MapDataRequestOrders.loop, hc]
  | error e => cases e <;> simp [MapDataRequestOrders.loop, hc]

/-- When the resolver yields `config.ErrUnknownColumn` for no order column, the loop
returns one order per entry, in order, with the entry's column and direction and no
comparator. -/
theorem MapDataRequestOrders_loop_ok (schema : config.ResolvedTableSchema) :
    ∀ (orders : List ColumnOrder) (w : World),
      (∀ o ∈ orders, unknownColumn schema o.Column = false) →
      MapDataRequestOrders.loop schema orders w =
        (.ok (orders.map fun o => { Column := o.Column, Dir := o.Dir, Comparator := none }),
          w ++ orders.map fun o => Event.Column o.Column)
  | [], w, _ => by simp [MapDataRequestOrders.loop]
  | o :: orders, w, h => by
    have ho : unknownColumn schema o.Column = false := h o (List.mem_cons_self _ _)
    have hloop := MapDataRequestOrders_loop_ok schema orders (w ++ [Event.Column o.Column])
      (fun x hx => h x (List.mem_cons_of_mem _ hx))
    rw [MapDataRequestOrders_loop_cons, hloop]
    simp [ho, datasource.NewOrder]

/-- When the orders before `bad` do not yield `config.ErrUnknownColumn` and `bad`
does, the loop fails on `bad`. -/
theorem MapDataRequestOrders_loop_error (schema : config.ResolvedTableSchema)
    (bad : ColumnOrder) (post : List ColumnOrder)
    (hbad : unknownColumn schema bad.Column = true) :
    ∀ (pre : List ColumnOrder) (w : World),
      (∀ o ∈ pre, unknownColumn schema o.Column = false) →
      MapDataRequestOrders.loop schema (pre ++ bad :: post) w =
        (.error ("unknown order column " ++ bad.Column),
          w ++ (pre ++ [bad]).map fun o => Event.Column o.Column)
  | [], w, _ => by
    rw [List.nil_append, MapDataRequestOrders_loop_cons]
    simp [hbad]
  | o :: pre, w, h => by
    have ho : unknownColumn schema o.Column = false := h o (List.mem_cons_self _ _)
    have hloop := MapDataRequestOrders_loop_error schema bad post hbad pre
      (w ++ [Event.Column o.Column]) (fun x hx => h x (List.mem_cons_of_mem _ hx))
    rw [List.cons_append, MapDataRequestOrders_loop_cons, hloop]
    simp [ho]

/-- A resolver outside its contract: for the request ordered by "broken" the example
resolver fails with an error other than `config.ErrUnknownColumn`, and
`MapDataRequestOrders` returns an order on "broken". -/
theorem MapDataRequestOrders_ignores_other_errors :
    (∃ o ∈ brokenOrderRequest.Order, resolves exampleSchema o.Column = false) ∧
    (MapDataRequestOrders brokenOrderRequest exampleSchema []).1 =
      .ok [{ Column := "broken", Dir := tableaux.Order.OrderDesc, Comparator := none }] ∧
    (MapDataRequestOrders brokenOrderRequest exampleSchema []).1 ≠
      .error "unknown order column broken" := by
  refine ⟨by decide, ?_, ?_⟩
  · rfl
  · intro h
    cases h

/-- For any resolver: if it yields `config.ErrUnknownColumn` for the column path of some
order entry, `MapDataRequestOrders` fails with "unknown order column " followed by the
first such path; it succeeds exactly when the resolver yields `config.ErrUnknownColumn`
for no order entry. -/
theorem MapDataRequestOrders_fails_on_unknown_column (dataRequest : DataRequest)
    (schema : config.ResolvedTableSchema) (w : World) :
    ((∃ o ∈ dataRequest.Order, unknownColumn schema o.Column = true) →
      ∃ pre bad post, dataRequest.Order = pre ++ bad :: post ∧
        (∀ o ∈ pre, unknownColumn schema o.Column = false) ∧
        unknownColumn schema bad.Column = true ∧
        (MapDataRequestOrders dataRequest schema w).1 =
          .error ("unknown order column " ++ bad.Column)) ∧
    ((∃ orders, (MapDataRequestOrders dataRequest schema w).1 = .ok orders) ↔
      ∀ o ∈ dataRequest.Order, unknownColumn schema o.Column = false) := by
  have key : (∃ o ∈ dataRequest.Order, unknownColumn schema o.Column = true) →
      ∃ pre bad post, dataRequest.Order = pre ++ bad :: post ∧
        (∀ o ∈ pre, unknownColumn schema o.Column = false) ∧
        unknownColumn schema bad.Column = true ∧
        (MapDataRequestOrders dataRequest schema w).1 =
          .error ("unknown order column " ++ bad.Column) := by
    intro h
    obtain ⟨pre, bad, post, hsplit, hpre, hbad⟩ :=
      exists_first_failing (fun o : ColumnOrder => !unknownColumn schema o.Column)
        dataRequest.Order (by simpa using h)
    have hpre1 : ∀ o ∈ pre, unknownColumn schema o.Column = false := by
      intro o ho
      simpa using hpre o ho
    have hbad1 : unknownColumn schema bad.Column = true := by simpa using hbad
    refine ⟨pre, bad, post, hsplit, hpre1, hbad1, ?_⟩
    simp only [MapDataRequestOrders, hsplit]
    rw [MapDataRequestOrders_loop_error schema bad post hbad1 pre w hpre1]
  refine ⟨key, ?_, ?_⟩
  · rintro ⟨orders, hok⟩ o ho
    by_contra hne
    obtain ⟨_, bad, _, _, _, _, herr⟩ := key ⟨o, ho, by simpa using hne⟩
    rw [herr] at hok
    cases hok
  · intro h
    refine ⟨dataRequest.Order.map fun o =>
      { Column := o.Column, Dir := o.Dir, Comparator := none }, ?_⟩
    simp only [MapDataRequestOrders]
    rw [MapDataRequestOrders_loop_ok schema dataRequest.Order w h]

/-- Under the contract of the resolver, a path yields `config.ErrUnknownColumn`
exactly when it does not resolve. -/
theorem unknownColumn_iff_not_resolves (schema : config.ResolvedTableSchema)
    (hcontract : resolverContract schema) (path : String) :
    unknownColumn schema path = true ↔ resolves schema path = false := by
  unfold unknownColumn resolves
  cases h : schema.Column path with
  | ok r => simp [Except.isOk, Except.toBool]
  | error e =>
    have he := hcontract path e h
    subst he
    simp [Except.isOk, Except.toBool]

/-- The resolver of the schema `peopleSchema` honours the contract. -/
theorem peopleSchema_resolverContract : resolverContract peopleSchema := by
  intro path e h
  simp only [peopleSchema] at h
  split_ifs at h
  cases h
  rfl

/-- C5: for a schema whose resolver honours its contract (a descriptor or the not-found
failure), if the column path of some order entry fails to resolve, `MapDataRequestOrders`
fails with "unknown order column " followed by the first such path; it succeeds
exactly when every order entry's column resolves. -/
theorem MapDataRequestOrders_fails_on_unresolved_column (dataRequest : DataRequest)
    (schema : config.ResolvedTableSchema) (w : World)
    (hcontract : resolverContract schema) :
    ((∃ o ∈ dataRequest.Order, resolves schema o.Column = false) →
      ∃ pre bad post, dataRequest.Order = pre ++ bad :: post ∧
        (∀ o ∈ pre, resolves schema o.Column = true) ∧
        resolves schema bad.Column = false ∧
        (MapDataRequestOrders dataRequest schema w).1 =
          .error ("unknown order column " ++ bad.Column)) ∧
    ((∃ orders, (MapDataRequestOrders dataRequest schema w).1 = .ok orders) ↔
      ∀ o ∈ dataRequest.Order, resolves schema o.Column = true) := by
  have hiff := unknownColumn_iff_not_resolves schema hcontract
  have hknown : ∀ path, unknownColumn schema path = false ↔ resolves schema path = true := by
    intro path
    have h := hiff path
    cases hu : unknownColumn schema path <;> cases hr : resolves schema path <;> simp_all
  obtain ⟨hfail, hok⟩ := MapDataRequestOrders_fails_on_unknown_column dataRequest schema w
  constructor
  · rintro ⟨o, ho, hunresolved⟩
    obtain ⟨pre, bad, post, hsplit, hpre, hbad, herr⟩ :=
      hfail ⟨o, ho, (hiff o.Column).mpr hunresolved⟩
    exact ⟨pre, bad, post, hsplit, fun x hx => (hknown x.Column).mp (hpre x hx),
      (hiff bad.Column).mp hbad, herr⟩
  · rw [hok]
    constructor
    · intro h o ho
      exact (hknown o.Column).mp (h o ho)
    · intro h o ho
      exact (hknown o.Column).mpr (h o ho)

/-- C5 at the request ordered by "name" and then by the unknown path "ageee", against
the schema `peopleSchema`: the mapping fails on the first order entry that does not
resolve. -/
theorem MapDataRequestOrders_fails_on_unresolved_column_witness :
    resolverContract peopleSchema ∧
    ∃ pre bad post, unknownOrderRequest.Order = pre ++ bad :: post ∧
      (∀ o ∈ pre, resolves peopleSchema o.Column = true) ∧
      resolves peopleSchema bad.Column = false ∧
      (MapDataRequestOrders unknownOrderRequest peopleSchema []).1 =
        .error ("unknown order column " ++ bad.Column) :=
  ⟨peopleSchema_resolverContract,
    (MapDataRequestOrders_fails_on_unresolved_column unknownOrderRequest peopleSchema []
      peopleSchema_resolverContract).1
      ⟨{ Column := "ageee", Dir := tableaux.Order.OrderDesc }, by decide, by decide⟩⟩

/-- C6: when every order column resolves, `MapDataRequestOrders` returns a list of the
same length as the request's order list whose i-th element has the i-th entry's
column path and direction and no comparator. -/
theorem MapDataRequestOrders_resolved_in_order (dataRequest : DataRequest)
    (schema : config.ResolvedTableSchema) (w : World)
    (h : ∀ o ∈ dataRequest.Order, resolves schema o.Column = true) :
    ∃ orders, (MapDataRequestOrders dataRequest schema w).1 = .ok orders ∧
      orders.length = dataRequest.Order.length ∧
      orders = dataRequest.Order.map fun o =>
        { Column := o.Column, Dir := o.Dir, Comparator := none } := by
  refine ⟨dataRequest.Order.map fun o =>
    { Column := o.Column, Dir := o.Dir, Comparator := none }, ?_, ?_, rfl⟩
  · simp only [MapDataRequestOrders]
    rw [MapDataRequestOrders_loop_ok schema dataRequest.Order w
      (fun o ho => unknownColumn_of_resolves schema o.Column (h o ho))]
  · simp

/-- The example request against the example schema: its one order entry resolves and
is mapped to a descending order on "age" without comparator. -/
theorem MapDataRequestOrders_resolved_in_order_witness :
    (∀ o ∈ exampleRequest.Order, resolves exampleSchema o.Column = true) ∧
    ∃ orders, (MapDataRequestOrders exampleRequest exampleSchema []).1 = .ok orders ∧
      orders.length = exampleRequest.Order.length ∧
      orders = exampleRequest.Order.map fun o =>
        { Column := o.Column, Dir := o.Dir, Comparator := none } :=
  ⟨by decide, MapDataRequestOrders_resolved_in_order exampleRequest exampleSchema [] (by decide)⟩

/-! ### Effects of the mapping functions and of the writers -/

/-- The result of `MapDataRequestColumns` does not depend on the record it is given,
and all it adds to the record are calls of the resolver. -/
theorem MapDataRequestColumns_loop_frame (schema : config.ResolvedTableSchema) :
    ∀ columns : List Column, ∃ (result : Except String (List config.TableSchemaColumn))
      (paths : List String), ∀ w : World,
      MapDataRequestColumns.loop schema columns w = (result, w ++ paths.map Event.Column)
  | [] => ⟨.ok [], [], fun w => by simp [MapDataRequestColumns.loop]⟩
  | c :: columns => by
    obtain ⟨result, paths, h⟩ := MapDataRequestColumns_loop_frame schema columns
    cases hc : schema.Column c.Name with
    | error e =>
      exact ⟨.error ("unknown column " ++ c.Name), [c.Name], fun w => by
        simp [MapDataRequestColumns.loop, hc]⟩
    | ok r =>
      cases result with
      | error err =>
        exact ⟨.error err, c.Name :: paths, fun w => by
          simp [MapDataRequestColumns.loop, hc, h]⟩
      | ok resolved =>
        exact ⟨.ok (r :: resolved), c.Name :: paths, fun w => by
          simp [MapDataRequestColumns.loop, hc, h]⟩

/-- The result of `MapDataRequestOrders` does not depend on the record it is given,
and all it adds to the record are calls of the resolver. -/
theorem MapDataRequestOrders_loop_frame (schema : config.ResolvedTableSchema) :
    ∀ orders : List ColumnOrder, ∃ (result : Except String (List datasource.Order))
      (paths : List String), ∀ w : World,
      MapDataRequestOrders.loop schema orders w = (result, w ++ paths.map Event.Column)
  | [] => ⟨.ok [], [], fun w => by simp [MapDataRequestOrders.loop]⟩
  | o :: orders => by
    obtain ⟨result, paths, h⟩ := MapDataRequestOrders_loop_frame schema orders
    by_cases ho : unknownColumn schema o.Column = true
    · exact ⟨.error ("unknown order column " ++ o.Column), [o.Column], fun w => by
        rw [MapDataRequestOrders_loop_cons, if_pos ho]
        simp⟩
    · cases result with
      | error err =>
        exact ⟨.error err, o.Column :: paths, fun w => by
          rw [MapDataRequestOrders_loop_cons, if_neg ho, h]
          simp⟩
      | ok mapped =>
        exact ⟨.ok (datasource.NewOrder o.Column o.Dir none :: mapped), o.Column :: paths,
          fun w => by
            rw [MapDataRequestOrders_loop_cons, if_neg ho, h]
            simp⟩

/-- The loop of `writeRow` only writes: it appends chunks that do not depend on the
record. Their keys are the paths of the columns in order and, commas apart, they are
one key, one colon and one value per column. -/
theorem writeRow_loop_chunks (columnData : Row) :
    ∀ (columns : List config.TableSchemaColumn) (count : Nat), ∃ chunks : List Chunk,
      (∀ w : World, writeRow.loop columnData columns count w = w ++ chunks.map Event.Write) ∧
      keysOf chunks = columns.map (fun c => c.Path) ∧
      chunks.filter (fun c => c != Chunk.lit ",") =
        columns.flatMap fun c =>
          [Chunk.key c.Path, Chunk.lit ":", Chunk.value (columnData.get c.Path)]
  | [], count => ⟨[], fun w => by simp [writeRow.loop], rfl, rfl⟩
  | c :: columns, count => by
    obtain ⟨chunks, hw, hkeys, hfilter⟩ := writeRow_loop_chunks columnData columns (count + 1)
    by_cases hlt : count + 1 < columnData.len
    · refine ⟨[Chunk.key c.Path, Chunk.lit ":", Chunk.value (columnData.get c.Path),
        Chunk.lit ","] ++ chunks, fun w => ?_, ?_, ?_⟩
      · simp [writeRow.loop, hlt, hw]
      · simp [keysOf, List.filterMap_cons] at hkeys ⊢
        exact hkeys
      · rw [List.filter_append, hfilter]
        simp [List.flatMap_cons, List.filter_cons]
    · refine ⟨[Chunk.key c.Path, Chunk.lit ":", Chunk.value (columnData.get c.Path)] ++ chunks,
        fun w => ?_, ?_, ?_⟩
      · simp [writeRow.loop, hlt, hw]
      · simp [keysOf, List.filterMap_cons] at hkeys ⊢
        exact hkeys
      · rw [List.filter_append, hfilter]
        simp [List.flatMap_cons, List.filter_cons]

/-- The function `writeRow` only writes: it appends chunks that do not depend on the
record, namely the two braces around the chunks of its loop. -/
theorem writeRow_chunks (columns : List config.TableSchemaColumn) (columnData : Row) :
    ∃ chunks : List Chunk,
      (∀ w : World, writeRow columns columnData w = w ++ chunks.map Event.Write) ∧
      keysOf chunks = columns.map (fun c => c.Path) ∧
      chunks.filter (fun c => c != Chunk.lit ",") =
        [Chunk.lit "\x7b"] ++
          (columns.flatMap fun c =>
            [Chunk.key c.Path, Chunk.lit ":", Chunk.value (columnData.get c.Path)]) ++
          [Chunk.lit "\x7d"] := by
  obtain ⟨chunks, hw, hkeys, hfilter⟩ := writeRow_loop_chunks columnData columns 0
  refine ⟨[Chunk.lit "\x7b"] ++ chunks ++ [Chunk.lit "\x7d"], fun w => ?_, ?_, ?_⟩
  · simp [writeRow, hw]
  · simp [keysOf, List.filterMap_cons, List.filterMap_append] at hkeys ⊢
    exact hkeys
  · rw [List.filter_append, List.filter_append, hfilter]
    rfl

/-- The loop over the rows only writes. -/
theorem handleRequest_rows_chunks (columns : List config.TableSchemaColumn) (n : Nat) :
    ∀ (rows : List Row) (i : Nat), ∃ chunks : List Chunk,
      ∀ w : World, handleRequest.rows columns n rows i w = w ++ chunks.map Event.Write
  | [], i => ⟨[], fun w => by simp [handleRequest.rows]⟩
  | row :: rows, i => by
    obtain ⟨rowChunks, hrow, _, _⟩ := writeRow_chunks columns row
    obtain ⟨chunks, hrest⟩ := handleRequest_rows_chunks columns n rows (i + 1)
    by_cases hlt : (i : Int) < (n : Int) - 1
    · exact ⟨rowChunks ++ [Chunk.lit ","] ++ chunks, fun w => by
        simp [handleRequest.rows, hlt, hrow, hrest]⟩
    · exact ⟨rowChunks ++ chunks, fun w => by
        simp [handleRequest.rows, hlt, hrow, hrest]⟩

/-- The body of a record followed by writes. -/
theorem body_append_writes (w : World) (chunks : List Chunk) :
    body (w ++ chunks.map Event.Write) = body w ++ chunks := by
  induction chunks generalizing w with
  | nil => simp
  | cons c chunks ih =>
    have h := ih (w ++ [Event.Write c])
    simp [body, List.filterMap_append] at h ⊢
    exact h

/-- A key chunk is among the chunks exactly when its path is among their keys. -/
theorem key_mem_iff (path : String) :
    ∀ chunks : List Chunk, Chunk.key path ∈ chunks ↔ path ∈ keysOf chunks
  | [] => by simp [keysOf]
  | c :: chunks => by
    have ih := key_mem_iff path chunks
    cases c <;> simp [keysOf, List.filterMap_cons] at ih ⊢ <;> simp [ih, eq_comm]

/-! ### `writeRow` -/

/-- C9: the keys written by `writeRow` are exactly the paths of the resolved columns,
one per column and in the order of the column list, whatever the row holds; a key
that is not the path of a resolved column is never written. -/
theorem writeRow_keys (columns : List config.TableSchemaColumn) (columnData : Row) :
    keysOf (body (writeRow columns columnData [])) = columns.map (fun c => c.Path) ∧
    ∀ key : String, key ∉ columns.map (fun c => c.Path) →
      Chunk.key key ∉ body (writeRow columns columnData []) := by
  obtain ⟨chunks, hw, hkeys, _⟩ := writeRow_chunks columns columnData
  have hbody : body (writeRow columns columnData []) = chunks := by
    rw [hw [], body_append_writes]
    rfl
  rw [hbody]
  refine ⟨hkeys, fun key hkey hmem => hkey ?_⟩
  rw [← hkeys]
  exact (key_mem_iff key chunks).mp hmem

/-- The claim of C10 fails for the column "age" and a row that holds only "name":
the key "age" is written, with the value of Go's `nil` (JSON null). -/
theorem writeRow_writes_absent_column :
    Row.has [("name", Value.str "Ada")] "age" = false ∧
    body (writeRow [{ Path := "age" }] [("name", Value.str "Ada")] []) =
      [Chunk.lit "\x7b", Chunk.key "age", Chunk.lit ":", Chunk.value Value.nil,
        Chunk.lit "\x7d"] := by
  decide

/-- C10 (amended): commas apart, `writeRow` writes for every resolved column, in
order, its key, a colon and the encoding of `columnData[path]`; that value is Go's
`nil` (JSON null) exactly when the row holds no entry for the path or holds an
explicit null for it, so a column absent from the row is written as null and not
left out. -/
theorem writeRow_fields (columns : List config.TableSchemaColumn) (columnData : Row) :
    (body (writeRow columns columnData [])).filter (fun c => c != Chunk.lit ",") =
      [Chunk.lit "\x7b"] ++
        (columns.flatMap fun c =>
          [Chunk.key c.Path, Chunk.lit ":", Chunk.value (columnData.get c.Path)]) ++
        [Chunk.lit "\x7d"] ∧
    ∀ path : String, columnData.get path = Value.nil ↔
      (columnData.has path = false ∨ columnData.lookup path = some Value.nil) := by
  obtain ⟨chunks, hw, _, hfilter⟩ := writeRow_chunks columns columnData
  have hbody : body (writeRow columns columnData []) = chunks := by
    rw [hw [], body_append_writes]
    rfl
  rw [hbody]
  refine ⟨hfilter, fun path => ?_⟩
  unfold Row.get Row.has
  cases List.lookup path columnData <;> simp

/-! ### `handleRequest` -/

/-- Writes start no stage. -/
theorem stagesOf_writes (chunks : List Chunk) : stagesOf (chunks.map Event.Write) = [] := by
  induction chunks with
  | nil => rfl
  | cons c chunks ih => simp [stagesOf, List.filterMap_cons, Event.stage]

/-- Calls of the resolver start no stage. -/
theorem stagesOf_resolver_calls (paths : List String) :
    stagesOf (paths.map Event.Column) = [] := by
  induction paths with
  | nil => rfl
  | cons c paths ih => simp [stagesOf, List.filterMap_cons, Event.stage]

/-- The stages of two records in sequence. -/
theorem stagesOf_append (w1 w2 : World) : stagesOf (w1 ++ w2) = stagesOf w1 ++ stagesOf w2 := by
  simp [stagesOf, List.filterMap_append]

/-- The stages of a record by its first event. -/
theorem stagesOf_cons (e : Event) (w : World) :
    stagesOf (e :: w) = (Event.stage e).toList ++ stagesOf w := by
  cases h : Event.stage e <;> simp [stagesOf, List.filterMap_cons, h]

/-- The empty record starts no stage. -/
theorem stagesOf_nil : stagesOf [] = [] := rfl

/-- Calls of the resolver write nothing. -/
theorem body_resolver_calls (paths : List String) : body (paths.map Event.Column) = [] := by
  induction paths with
  | nil => rfl
  | cons c paths ih => simp [body, List.filterMap_cons]

/-- The body of two records in sequence. -/
theorem body_append (w1 w2 : World) : body (w1 ++ w2) = body w1 ++ body w2 := by
  simp [body, List.filterMap_append]

/-- C7: `handleRequest` starts the stages in the order Validator, column mapping,
filter mapping, order mapping, `Connector.ValidateRequest`, `Connector.FetchData`
and starts none after the first that fails; a request with `length <= 0`, `start < 0`,
`draw < 0` or no columns causes no call of the resolver or of the connector; and a
valid request with an unresolved column and an unresolved order column is answered
with "unknown column " and the first unresolved column. -/
theorem handleRequest_stage_order (th : tableauxServerWrapper) (dataRequest : DataRequest)
    (schema : config.ResolvedTableSchema) :
    stagesOf (handleRequest th [] dataRequest schema) =
      runStages (stageFails th dataRequest schema) pipeline ∧
    ((dataRequest.Length ≤ 0 ∨ dataRequest.Start < 0 ∨ dataRequest.Draw < 0 ∨
        dataRequest.Columns = []) →
      ∀ e ∈ handleRequest th [] dataRequest schema, e.isExternalCall = false) ∧
    (ValidateDataRequest dataRequest = none →
      (∃ c ∈ dataRequest.Columns, resolves schema c.Name = false) →
      (∃ o ∈ dataRequest.Order, resolves schema o.Column = false) →
      ∃ pre bad post, dataRequest.Columns = pre ++ bad :: post ∧
        (∀ c ∈ pre, resolves schema c.Name = true) ∧ resolves schema bad.Name = false ∧
        body (handleRequest th [] dataRequest schema) =
          [Chunk.error ("unknown column " ++ bad.Name) dataRequest.Draw]) := by
  refine ⟨?_, ?_, ?_⟩
  · obtain ⟨cres, cpaths, hc⟩ := MapDataRequestColumns_loop_frame schema dataRequest.Columns
    obtain ⟨ores, opaths, ho⟩ := MapDataRequestOrders_loop_frame schema dataRequest.Order
    cases hv : ValidateDataRequest dataRequest with
    | some err =>
      simp [handleRequest, hv, writeErrorResponse, stagesOf_append, stagesOf_cons,
        stagesOf_nil, Event.stage, runStages, pipeline, stageFails]
    | none =>
      cases cres with
      | error err =>
        simp [handleRequest, hv, MapDataRequestColumns, hc, writeErrorResponse,
          stagesOf_append, stagesOf_cons, stagesOf_nil, stagesOf_resolver_calls, Event.stage,
          runStages, pipeline, stageFails, Except.isOk, Except.toBool]
      | ok columns =>
        cases ores with
        | error err =>
          simp [handleRequest, hv, MapDataRequestColumns, hc, MapDataRequestOrders, ho,
            MapDataRequestFilters, writeErrorResponse, stagesOf_append, stagesOf_cons,
            stagesOf_nil, stagesOf_resolver_calls, Event.stage, runStages, pipeline,
            stageFails, Except.isOk, Except.toBool]
        | ok orders =>
          have hargs : connectorArgs dataRequest schema =
              { columns := columns, schema := schema,
                filters := MapDataRequestFilters.loop dataRequest.Columns [],
                orders := orders, globalSearch := dataRequest.Search.Value, limit := 10,
                offset := 0, locale := dataRequest.Locale } := by
            simp [connectorArgs, MapDataRequestColumns, hc, MapDataRequestOrders, ho,
              MapDataRequestFilters, okOr]
          cases hcv : th.connector.ValidateRequest (connectorArgs dataRequest schema) with
          | some valErr =>
            have hcv1 := hcv
            rw [hargs] at hcv1
            simp [handleRequest, hv, MapDataRequestColumns, hc, MapDataRequestOrders, ho,
              MapDataRequestFilters, hcv1, hcv, stagesOf_append, stagesOf_cons, stagesOf_nil,
              stagesOf_resolver_calls, Event.stage, runStages, pipeline, stageFails,
              Except.isOk, Except.toBool]
          | none =>
            have hcv1 := hcv
            rw [hargs] at hcv1
            cases hf : th.connector.FetchData (connectorArgs dataRequest schema) with
            | error err =>
              have hf1 := hf
              rw [hargs] at hf1
              simp [handleRequest, hv, MapDataRequestColumns, hc, MapDataRequestOrders, ho,
                MapDataRequestFilters, hcv1, hcv, hf1, hf, writeErrorResponse, stagesOf_append,
                stagesOf_cons, stagesOf_nil, stagesOf_resolver_calls, Event.stage, runStages,
                pipeline, stageFails, Except.isOk, Except.toBool]
            | ok fetched =>
              obtain ⟨result, totalCount, filteredCount⟩ := fetched
              have hf1 := hf
              rw [hargs] at hf1
              obtain ⟨chunks, hrows⟩ := handleRequest_rows_chunks columns result.length result 0
              simp [handleRequest, hv, MapDataRequestColumns, hc, MapDataRequestOrders, ho,
                MapDataRequestFilters, hcv1, hcv, hf1, hf, hrows, stagesOf_append,
                stagesOf_cons, stagesOf_nil, stagesOf_resolver_calls, stagesOf_writes,
                Event.stage, runStages, pipeline, stageFails, Except.isOk, Except.toBool]
  · intro hinvalid
    have hv : ∃ err, ValidateDataRequest dataRequest = some err := by
      cases hv : ValidateDataRequest dataRequest with
      | some err => exact ⟨err, rfl⟩
      | none =>
        have h := (ValidateDataRequest_valid_iff dataRequest).mp hv
        rcases hinvalid with h1 | h1 | h1 | h1
        · omega
        · omega
        · omega
        · exact absurd h1 h.2.2.2
    obtain ⟨err, hv⟩ := hv
    intro e he
    simp [handleRequest, hv, writeErrorResponse] at he
    rcases he with rfl | rfl | rfl <;> rfl
  · intro hv hcol _
    obtain ⟨pre, bad, post, hsplit, hpre, hbad⟩ :=
      exists_first_failing (fun c : Column => resolves schema c.Name) dataRequest.Columns hcol
    refine ⟨pre, bad, post, hsplit, hpre, hbad, ?_⟩
    have hloop := MapDataRequestColumns_loop_error schema bad post hbad pre
      ([] ++ [Event.Call Stage.Validator] ++ [Event.Call Stage.ColumnMapping]) hpre
    rw [← hsplit] at hloop
    simp only [handleRequest, hv, MapDataRequestColumns, hloop, writeErrorResponse]
    simp [body_append, body_resolver_calls]
    simp [body]

/-- C7 at concrete inputs: the request with length 0 and no columns causes no call of
the resolver or the connector, and the valid request with the unknown column "ageee"
and the unknown order column "nameee" is answered with the first unresolved column. -/
theorem handleRequest_stage_order_witness :
    (∀ e ∈ handleRequest { connector := exampleConnector } [] invalidRequest exampleSchema,
      e.isExternalCall = false) ∧
    ∃ pre bad post, unknownColumnAndOrderRequest.Columns = pre ++ bad :: post ∧
      (∀ c ∈ pre, resolves exampleSchema c.Name = true) ∧
      resolves exampleSchema bad.Name = false ∧
      body (handleRequest { connector := exampleConnector } [] unknownColumnAndOrderRequest
          exampleSchema) =
        [Chunk.error ("unknown column " ++ bad.Name) unknownColumnAndOrderRequest.Draw] :=
  ⟨(handleRequest_stage_order { connector := exampleConnector } invalidRequest
      exampleSchema).2.1 (Or.inl (by decide)),
    (handleRequest_stage_order { connector := exampleConnector } unknownColumnAndOrderRequest
      exampleSchema).2.2 (by decide) (by decide) (by decide)⟩

/-- C8 at the failing input: the example request is valid and maps, the connector's
`ValidateRequest` rejects it with a message, and `handleRequest` writes the status 400
and no body at all (the message only reaches the log); on the same request a failure
of `FetchData` is written as the error envelope with the message and the draw. -/
theorem handleRequest_validate_request_failure_has_no_body :
    runStages (stageFails { connector := rejectingConnector } exampleRequest exampleSchema)
        pipeline =
      [Stage.Validator, Stage.ColumnMapping, Stage.FilterMapping, Stage.OrderMapping,
        Stage.ConnectorValidateRequest] ∧
    rejectingConnector.ValidateRequest (connectorArgs exampleRequest exampleSchema) =
      some "unsupported filter" ∧
    body (handleRequest { connector := rejectingConnector } [] exampleRequest exampleSchema) =
      [] ∧
    statusCodes (handleRequest { connector := rejectingConnector } [] exampleRequest
      exampleSchema) = [400] ∧
    body (handleRequest { connector := failingConnector } [] exampleRequest exampleSchema) =
      [Chunk.error "connection lost" 5] := by
  refine ⟨?_, ?_, ?_, ?_, ?_⟩ <;> decide

/-! ### The record of `handleRequest`, stage by stage -/

/-- The resolver calls of a list of resolver calls. -/
theorem resolverCalls_map_Column (paths : List String) :
    resolverCalls (paths.map Event.Column) = paths := by
  induction paths with
  | nil => rfl
  | cons p paths ih => simpa [resolverCalls, List.filterMap_cons] using ih

/-- The function `MapDataRequestColumns` appends, to any record, the resolver calls
it makes on the empty record, and its result does not depend on the record. -/
theorem MapDataRequestColumns_frame (dataRequest : DataRequest)
    (schema : config.ResolvedTableSchema) (w : World) :
    MapDataRequestColumns dataRequest schema w =
      ((MapDataRequestColumns dataRequest schema []).1,
        w ++ (resolverCalls (MapDataRequestColumns dataRequest schema []).2).map Event.Column) := by
  obtain ⟨result, paths, h⟩ := MapDataRequestColumns_loop_frame schema dataRequest.Columns
  simp [MapDataRequestColumns, h, resolverCalls_map_Column]

/-- The function `MapDataRequestOrders` appends, to any record, the resolver calls it
makes on the empty record, and its result does not depend on the record. -/
theorem MapDataRequestOrders_frame (dataRequest : DataRequest)
    (schema : config.ResolvedTableSchema) (w : World) :
    MapDataRequestOrders dataRequest schema w =
      ((MapDataRequestOrders dataRequest schema []).1,
        w ++ (resolverCalls (MapDataRequestOrders dataRequest schema []).2).map Event.Column) := by
  obtain ⟨result, paths, h⟩ := MapDataRequestOrders_loop_frame schema dataRequest.Order
  simp [MapDataRequestOrders, h, resolverCalls_map_Column]

/-- The function `writeRow` appends the chunks of the row to any record. -/
theorem writeRow_frame (columns : List config.TableSchemaColumn) (columnData : Row)
    (w : World) :
    writeRow columns columnData w = w ++ (rowChunks columns columnData).map Event.Write := by
  obtain ⟨chunks, hw, _, _⟩ := writeRow_chunks columns columnData
  have hbody : rowChunks columns columnData = chunks := by
    unfold rowChunks
    rw [hw [], body_append_writes]
    rfl
  rw [hbody, hw w]

/-- The loop over the rows, started at index `i` with `i + len(rows) = n`, appends the
chunks of the rows in order with one comma chunk between consecutive rows. -/
theorem handleRequest_rows_intercalate (columns : List config.TableSchemaColumn) (n : Nat) :
    ∀ (rows : List Row) (i : Nat) (w : World), i + rows.length = n →
      handleRequest.rows columns n rows i w =
        w ++ (List.intercalate [Chunk.lit ","] (rows.map (rowChunks columns))).map Event.Write
  | [], i, w, _ => by simp [handleRequest.rows, List.intercalate]
  | [row], i, w, h => by
    have hlast : ¬ ((i : Int) < (n : Int) - 1) := by
      simp at h
      omega
    simp [handleRequest.rows, hlast, writeRow_frame, List.intercalate]
  | row :: next :: rows, i, w, h => by
    have hmore : (i : Int) < (n : Int) - 1 := by
      simp at h
      omega
    have ih := handleRequest_rows_intercalate columns n (next :: rows) (i + 1)
      (writeRow columns row w ++ [Event.Write (Chunk.lit ",")]) (by simp at h ⊢; omega)
    rw [handleRequest.rows]
    simp only [hmore, if_true]
    rw [ih, writeRow_frame]
    simp [List.intercalate, List.intersperse]

/-- The record of `handleRequest`, by the outcome of its stages: what it appends to
the record it is given. The arguments of both connector calls are `connectorArgs`. -/
theorem handleRequest_record (th : tableauxServerWrapper) (w : World)
    (dataRequest : DataRequest) (schema : config.ResolvedTableSchema) :
    handleRequest th w dataRequest schema =
      w ++
      match ValidateDataRequest dataRequest with
      | some err =>
        [Event.Call Stage.Validator, Event.WriteHeader 400,
          Event.Write (Chunk.error err dataRequest.Draw)]
      | none =>
        [Event.Call Stage.Validator, Event.Call Stage.ColumnMapping] ++
        (resolverCalls (MapDataRequestColumns dataRequest schema []).2).map Event.Column ++
        match (MapDataRequestColumns dataRequest schema []).1 with
        | .error err =>
          [Event.WriteHeader 400, Event.Write (Chunk.error err dataRequest.Draw)]
        | .ok _ =>
          [Event.Call Stage.FilterMapping, Event.Call Stage.OrderMapping] ++
          (resolverCalls (MapDataRequestOrders dataRequest schema []).2).map Event.Column ++
          match (MapDataRequestOrders dataRequest schema []).1 with
          | .error err =>
            [Event.WriteHeader 400, Event.Write (Chunk.error err dataRequest.Draw)]
          | .ok _ =>
            [Event.ValidateRequest (connectorArgs dataRequest schema)] ++
            match th.connector.ValidateRequest (connectorArgs dataRequest schema) with
            | some valErr =>
              [Event.Log "Failed to validate request" valErr, Event.WriteHeader 400]
            | none =>
              [Event.FetchData (connectorArgs dataRequest schema)] ++
              match th.connector.FetchData (connectorArgs dataRequest schema) with
              | .error err =>
                [Event.WriteHeader 400, Event.Write (Chunk.error err dataRequest.Draw)]
              | .ok (result, totalCount, filteredCount) =>
                ([Chunk.lit "\x7b\"data\": ["] ++
                  List.intercalate [Chunk.lit ","]
                    (result.map (rowChunks (connectorArgs dataRequest schema).columns)) ++
                  [Chunk.lit "],", Chunk.draw dataRequest.Draw,
                    Chunk.recordsTotal totalCount,
                    Chunk.recordsFiltered filteredCount]).map Event.Write := by
  obtain ⟨cres, cpaths, hc⟩ := MapDataRequestColumns_loop_frame schema dataRequest.Columns
  obtain ⟨ores, opaths, ho⟩ := MapDataRequestOrders_loop_frame schema dataRequest.Order
  have hc1 : (MapDataRequestColumns dataRequest schema []).1 = cres := by
    simp [MapDataRequestColumns, hc]
  have hc2 : resolverCalls (MapDataRequestColumns dataRequest schema []).2 = cpaths := by
    simp [MapDataRequestColumns, hc, resolverCalls_map_Column]
  have ho1 : (MapDataRequestOrders dataRequest schema []).1 = ores := by
    simp [MapDataRequestOrders, ho]
  have ho2 : resolverCalls (MapDataRequestOrders dataRequest schema []).2 = opaths := by
    simp [MapDataRequestOrders, ho, resolverCalls_map_Column]
  rw [hc1, hc2, ho1, ho2]
  cases hv : ValidateDataRequest dataRequest with
  | some err => simp [handleRequest, hv, writeErrorResponse, StatusBadRequest]
  | none =>
    cases cres with
    | error err =>
      simp [handleRequest, hv, MapDataRequestColumns, hc, writeErrorResponse, StatusBadRequest]
    | ok columns =>
      cases ores with
      | error err =>
        simp [handleRequest, hv, MapDataRequestColumns, hc, MapDataRequestOrders, ho,
          MapDataRequestFilters, writeErrorResponse, StatusBadRequest]
      | ok orders =>
        have hargs : connectorArgs dataRequest schema =
            { columns := columns, schema := schema,
              filters := MapDataRequestFilters.loop dataRequest.Columns [],
              orders := orders, globalSearch := dataRequest.Search.Value, limit := 10,
              offset := 0, locale := dataRequest.Locale } := by
          simp [connectorArgs, MapDataRequestColumns, hc, MapDataRequestOrders, ho,
            MapDataRequestFilters, okOr]
        have hcols : (connectorArgs dataRequest schema).columns = columns := by rw [hargs]
        cases hcv : th.connector.ValidateRequest (connectorArgs dataRequest schema) with
        | some valErr =>
          have hcv1 := hcv
          rw [hargs] at hcv1
          simp [handleRequest, hv, MapDataRequestColumns, hc, MapDataRequestOrders, ho,
            MapDataRequestFilters, hcv1, hargs, StatusBadRequest]
        | none =>
          have hcv1 := hcv
          rw [hargs] at hcv1
          cases hf : th.connector.FetchData (connectorArgs dataRequest schema) with
          | error err =>
            have hf1 := hf
            rw [hargs] at hf1
            simp [handleRequest, hv, MapDataRequestColumns, hc, MapDataRequestOrders, ho,
              MapDataRequestFilters, hcv1, hf1, hargs, writeErrorResponse, StatusBadRequest]
          | ok fetched =>
            obtain ⟨result, totalCount, filteredCount⟩ := fetched
            have hf1 := hf
            rw [hargs] at hf1
            have hrows := handleRequest_rows_intercalate columns result.length result 0
            simp [handleRequest, hv, MapDataRequestColumns, hc, MapDataRequestOrders, ho,
              MapDataRequestFilters, hcv1, hf1, hcols, hargs, hrows]

/-- No stage fails exactly when the validator accepts, the column and order mappings
return lists, and both connector calls return without error. -/
theorem no_stage_fails_iff (th : tableauxServerWrapper) (dataRequest : DataRequest)
    (schema : config.ResolvedTableSchema) :
    pipeline.any (stageFails th dataRequest schema) = false ↔
      ValidateDataRequest dataRequest = none ∧
      (∃ columns, (MapDataRequestColumns dataRequest schema []).1 = .ok columns) ∧
      (∃ orders, (MapDataRequestOrders dataRequest schema []).1 = .ok orders) ∧
      th.connector.ValidateRequest (connectorArgs dataRequest schema) = none ∧
      ∃ fetched, th.connector.FetchData (connectorArgs dataRequest schema) = .ok fetched := by
  cases hv : ValidateDataRequest dataRequest <;>
  cases hc : (MapDataRequestColumns dataRequest schema []).1 <;>
  cases ho : (MapDataRequestOrders dataRequest schema []).1 <;>
  cases hcv : th.connector.ValidateRequest (connectorArgs dataRequest schema) <;>
  cases hf : th.connector.FetchData (connectorArgs dataRequest schema) <;>
  simp [pipeline, stageFails, hv, hc, ho, hcv, hf, MapDataRequestFilters, Except.isOk,
    Except.toBool]

/-- The record of `handleRequest` when no stage fails: the stage starts and resolver
calls, the two connector calls, and then only writes, namely the opening of the data
array, the rows with one comma between consecutive rows, and the three counters. -/
theorem handleRequest_success_record (th : tableauxServerWrapper) (w : World)
    (dataRequest : DataRequest) (schema : config.ResolvedTableSchema)
    (result : List Row) (totalCount filteredCount : Int)
    (h : pipeline.any (stageFails th dataRequest schema) = false)
    (hf : th.connector.FetchData (connectorArgs dataRequest schema) =
      .ok (result, totalCount, filteredCount)) :
    handleRequest th w dataRequest schema =
      w ++ ([Event.Call Stage.Validator, Event.Call Stage.ColumnMapping] ++
        (resolverCalls (MapDataRequestColumns dataRequest schema []).2).map Event.Column ++
        ([Event.Call Stage.FilterMapping, Event.Call Stage.OrderMapping] ++
        (resolverCalls (MapDataRequestOrders dataRequest schema []).2).map Event.Column ++
        ([Event.ValidateRequest (connectorArgs dataRequest schema)] ++
        ([Event.FetchData (connectorArgs dataRequest schema)] ++
        ([Chunk.lit "\x7b\"data\": ["] ++
          List.intercalate [Chunk.lit ","]
            (result.map (rowChunks (connectorArgs dataRequest schema).columns)) ++
          [Chunk.lit "],", Chunk.draw dataRequest.Draw, Chunk.recordsTotal totalCount,
            Chunk.recordsFiltered filteredCount]).map Event.Write)))) := by
  obtain ⟨hv, ⟨columns, hc⟩, ⟨orders, ho⟩, hcv, _⟩ :=
    (no_stage_fails_iff th dataRequest schema).mp h
  rw [handleRequest_record, hv, hc, ho, hcv, hf]

/-- The body of a record of writes only. -/
theorem body_writes (chunks : List Chunk) : body (chunks.map Event.Write) = chunks := by
  have h := body_append_writes [] chunks
  simpa [body] using h

/-- The body of the record of `handleRequest` when no stage fails. -/
theorem handleRequest_success_body (th : tableauxServerWrapper)
    (dataRequest : DataRequest) (schema : config.ResolvedTableSchema)
    (result : List Row) (totalCount filteredCount : Int)
    (h : pipeline.any (stageFails th dataRequest schema) = false)
    (hf : th.connector.FetchData (connectorArgs dataRequest schema) =
      .ok (result, totalCount, filteredCount)) :
    body (handleRequest th [] dataRequest schema) =
      [Chunk.lit "\x7b\"data\": ["] ++
        List.intercalate [Chunk.lit ","]
          (result.map (rowChunks (connectorArgs dataRequest schema).columns)) ++
        [Chunk.lit "],", Chunk.draw dataRequest.Draw, Chunk.recordsTotal totalCount,
          Chunk.recordsFiltered filteredCount] := by
  rw [handleRequest_success_record th [] dataRequest schema result totalCount filteredCount h hf]
  simp only [body_append, body_resolver_calls, body_writes]
  simp [body]

/-- The chunks of a row start with the opening brace and end with the closing one. -/
theorem rowChunks_braces (columns : List config.TableSchemaColumn) (columnData : Row) :
    ∃ chunks, rowChunks columns columnData =
      Chunk.lit "\x7b" :: (chunks ++ [Chunk.lit "\x7d"]) := by
  obtain ⟨chunks, hw, _, _⟩ := writeRow_loop_chunks columnData columns 0
  refine ⟨chunks, ?_⟩
  unfold rowChunks
  simp only [writeRow, hw]
  simp only [body_append, body_writes]
  simp [body]

/-- Between `n` lists, none of which is the separator, `intersperse` puts `n - 1`
separators. -/
theorem count_intersperse {α : Type} [BEq α] [LawfulBEq α] (sep : α) :
    ∀ l : List α, (∀ x ∈ l, x ≠ sep) → (l.intersperse sep).count sep = l.length - 1
  | [], _ => rfl
  | [x], h => by
    have hx : x ≠ sep := h x (List.mem_singleton.mpr rfl)
    simp [List.intersperse, List.count_cons, hx]
  | x :: y :: l, h => by
    have hx : x ≠ sep := h x (List.mem_cons_self _ _)
    have ih := count_intersperse sep (y :: l) (fun z hz => h z (List.mem_cons_of_mem _ hz))
    simp only [List.intersperse] at ih ⊢
    simp [List.count_cons, hx, ih]

/-- One or more rows in sequence, separated by commas, end with the closing brace of
the last row. -/
theorem intercalate_rows_last (columns : List config.TableSchemaColumn) :
    ∀ (rows : List Row) (row : Row),
      ∃ init, List.intercalate [Chunk.lit ","] ((row :: rows).map (rowChunks columns)) =
        init ++ [Chunk.lit "\x7d"]
  | [], row => by
    obtain ⟨chunks, hrow⟩ := rowChunks_braces columns row
    exact ⟨Chunk.lit "\x7b" :: chunks, by simp [List.intercalate, hrow]⟩
  | next :: rows, row => by
    obtain ⟨init, hinit⟩ := intercalate_rows_last columns rows next
    refine ⟨rowChunks columns row ++ [Chunk.lit ","] ++ init, ?_⟩
    simp only [List.intercalate, List.map_cons, List.intersperse, List.flatten_cons] at hinit ⊢
    rw [hinit]
    simp

/-- The bytes of a list of strings followed by another. -/
theorem String_join_append (l1 l2 : List String) :
    String.join (l1 ++ l2) = String.join l1 ++ String.join l2 := by
  apply String.ext
  simp [String.data_join]

/-- The bytes of a string followed by a list of strings. -/
theorem String_join_cons (s : String) (l : List String) :
    String.join (s :: l) = s ++ String.join l := by
  apply String.ext
  simp [String.data_join]

/-! ### The success envelope -/

/-- C11: when no stage fails and the connector returns the rows `result`, the data array
written by `handleRequest` holds the chunks of the rows in the connector's order with
one comma chunk between consecutive rows: `len(result) - 1` separators, none for no
row (the opening bracket is directly followed by the closing one), none after a
single row, and never a comma as the last chunk before the closing bracket. -/
theorem handleRequest_row_commas (th : tableauxServerWrapper)
    (dataRequest : DataRequest) (schema : config.ResolvedTableSchema)
    (result : List Row) (totalCount filteredCount : Int)
    (h : pipeline.any (stageFails th dataRequest schema) = false)
    (hf : th.connector.FetchData (connectorArgs dataRequest schema) =
      .ok (result, totalCount, filteredCount)) :
    body (handleRequest th [] dataRequest schema) =
      [Chunk.lit "\x7b\"data\": ["] ++
        List.intercalate [Chunk.lit ","]
          (result.map (rowChunks (connectorArgs dataRequest schema).columns)) ++
        [Chunk.lit "],", Chunk.draw dataRequest.Draw, Chunk.recordsTotal totalCount,
          Chunk.recordsFiltered filteredCount] ∧
    ((result.map (rowChunks (connectorArgs dataRequest schema).columns)).intersperse
      [Chunk.lit ","]).count [Chunk.lit ","] = result.length - 1 ∧
    (result = [] →
      body (handleRequest th [] dataRequest schema) =
        [Chunk.lit "\x7b\"data\": [", Chunk.lit "],", Chunk.draw dataRequest.Draw,
          Chunk.recordsTotal totalCount, Chunk.recordsFiltered filteredCount]) ∧
    (∀ row, result = [row] →
      body (handleRequest th [] dataRequest schema) =
        [Chunk.lit "\x7b\"data\": ["] ++
          rowChunks (connectorArgs dataRequest schema).columns row ++
          [Chunk.lit "],", Chunk.draw dataRequest.Draw, Chunk.recordsTotal totalCount,
            Chunk.recordsFiltered filteredCount]) ∧
    (List.intercalate [Chunk.lit ","]
      (result.map (rowChunks (connectorArgs dataRequest schema).columns))).getLast? ≠
        some (Chunk.lit ",") := by
  have hbody := handleRequest_success_body th dataRequest schema result totalCount
    filteredCount h hf
  refine ⟨hbody, ?_, ?_, ?_, ?_⟩
  · have hcount := count_intersperse [Chunk.lit ","]
      (result.map (rowChunks (connectorArgs dataRequest schema).columns)) (by
        intro x hx hsep
        obtain ⟨row, _, hrow⟩ := List.mem_map.mp hx
        obtain ⟨chunks, hchunks⟩ :=
          rowChunks_braces (connectorArgs dataRequest schema).columns row
        rw [← hrow, hchunks] at hsep
        simp at hsep)
    simpa using hcount
  · intro hnil
    rw [hbody, hnil]
    simp [List.intercalate]
  · intro row hrow
    rw [hbody, hrow]
    simp [List.intercalate]
  · cases result with
    | nil => simp [List.intercalate]
    | cons row rows =>
      obtain ⟨init, hinit⟩ :=
        intercalate_rows_last (connectorArgs dataRequest schema).columns rows row
      rw [hinit]
      simp

/-- C11 at the example request with the connector that returns two rows. -/
theorem handleRequest_row_commas_witness :
    ((([[("age", Value.int 36), ("name", Value.str "Ada")],
        [("age", Value.int 41), ("name", Value.str "Alan")]] : List Row).map
        (rowChunks (connectorArgs exampleRequest exampleSchema).columns)).intersperse
      [Chunk.lit ","]).count [Chunk.lit ","] = 2 - 1 :=
  (handleRequest_row_commas { connector := exampleConnector } exampleRequest exampleSchema
    [[("age", Value.int 36), ("name", Value.str "Ada")],
      [("age", Value.int 41), ("name", Value.str "Alan")]] 2 2 (by decide) rfl).2.1

/-- C12: when no stage fails, the body written by `handleRequest` is the opening of the
field `data`, the chunks of the connector's rows in the connector's order, the closing
bracket, and then the fields `draw`, `recordsTotal` and `recordsFiltered`, in that order,
with the request's draw and the two counts returned by `FetchData`. -/
theorem handleRequest_success_envelope (enc : JsonEncoder) (th : tableauxServerWrapper)
    (dataRequest : DataRequest) (schema : config.ResolvedTableSchema)
    (result : List Row) (totalCount filteredCount : Int)
    (h : pipeline.any (stageFails th dataRequest schema) = false)
    (hf : th.connector.FetchData (connectorArgs dataRequest schema) =
      .ok (result, totalCount, filteredCount)) :
    body (handleRequest th [] dataRequest schema) =
      [Chunk.lit "\x7b\"data\": ["] ++
        List.intercalate [Chunk.lit ","]
          (result.map (rowChunks (connectorArgs dataRequest schema).columns)) ++
        [Chunk.lit "],", Chunk.draw dataRequest.Draw, Chunk.recordsTotal totalCount,
          Chunk.recordsFiltered filteredCount] ∧
    bytesOf enc (handleRequest th [] dataRequest schema) =
      "\x7b\"data\": [" ++
        String.join ((List.intercalate [Chunk.lit ","]
          (result.map (rowChunks (connectorArgs dataRequest schema).columns))).map
            (Chunk.bytes enc)) ++
        ("]," ++ ("\"draw\": " ++ toString dataRequest.Draw ++ ", " ++
          ("\"recordsTotal\": " ++ toString totalCount ++ "," ++
          ("\"recordsFiltered\": " ++ toString filteredCount ++ "\x7d")))) := by
  have hbody := handleRequest_success_body th dataRequest schema result totalCount
    filteredCount h hf
  refine ⟨hbody, ?_⟩
  unfold bytesOf
  rw [hbody, List.map_append, List.map_append, String_join_append, String_join_append]
  simp only [List.map_cons, List.map_nil, String_join_cons, Chunk.bytes]
  apply String.ext
  simp [String.data_join]

/-- C12 at the example request with the connector that returns two rows. -/
theorem handleRequest_success_envelope_witness :
    body (handleRequest { connector := exampleConnector } [] exampleRequest exampleSchema) =
      [Chunk.lit "\x7b\"data\": ["] ++
        List.intercalate [Chunk.lit ","]
          (([[("age", Value.int 36), ("name", Value.str "Ada")],
            [("age", Value.int 41), ("name", Value.str "Alan")]] : List Row).map
            (rowChunks (connectorArgs exampleRequest exampleSchema).columns)) ++
        [Chunk.lit "],", Chunk.draw exampleRequest.Draw, Chunk.recordsTotal 2,
          Chunk.recordsFiltered 2] :=
  (handleRequest_success_envelope exampleEncoder { connector := exampleConnector }
    exampleRequest exampleSchema _ 2 2 (by decide) rfl).1

/-- The claim of C13 fails for the example request (draw 5) and a connector that returns
no row with the counts 7 and 0: the bytes written have a blank after `"draw":`, after
the comma that follows the draw, after `"recordsTotal":` and after
`"recordsFiltered":`. -/
theorem handleRequest_empty_result_bytes_differ :
    pipeline.any (stageFails { connector := emptyConnector } exampleRequest exampleSchema) =
      false ∧
    bytesOf exampleEncoder
        (handleRequest { connector := emptyConnector } [] exampleRequest exampleSchema) =
      "\x7b\"data\": [],\"draw\": 5, \"recordsTotal\": 7,\"recordsFiltered\": 0\x7d" ∧
    bytesOf exampleEncoder
        (handleRequest { connector := emptyConnector } [] exampleRequest exampleSchema) ≠
      "\x7b\"data\": [],\"draw\":5,\"recordsTotal\":7,\"recordsFiltered\":0\x7d" := by
  refine ⟨?_, ?_, ?_⟩ <;> decide

/-- C13 (amended): when no stage fails and the connector returns no row, the bytes
written by `handleRequest` are `{"data": [],"draw": D, "recordsTotal": T,"recordsFiltered": F}`
with the request's draw `D` and the counts `T` and `F` in decimal, for every encoder. -/
theorem handleRequest_empty_result_bytes (enc : JsonEncoder) (th : tableauxServerWrapper)
    (dataRequest : DataRequest) (schema : config.ResolvedTableSchema)
    (totalCount filteredCount : Int)
    (h : pipeline.any (stageFails th dataRequest schema) = false)
    (hf : th.connector.FetchData (connectorArgs dataRequest schema) =
      .ok ([], totalCount, filteredCount)) :
    bytesOf enc (handleRequest th [] dataRequest schema) =
      "\x7b\"data\": [],\"draw\": " ++ toString dataRequest.Draw ++ ", \"recordsTotal\": " ++
        toString totalCount ++ ",\"recordsFiltered\": " ++ toString filteredCount ++
        "\x7d" := by
  have hbody := handleRequest_success_body th dataRequest schema [] totalCount
    filteredCount h hf
  have h1 : "\x7b\"data\": [],\"draw\": " = "\x7b\"data\": [" ++ "]," ++ "\"draw\": " := by
    decide
  have h2 : ", \"recordsTotal\": " = ", " ++ "\"recordsTotal\": " := by decide
  have h3 : ",\"recordsFiltered\": " = "," ++ "\"recordsFiltered\": " := by decide
  unfold bytesOf
  rw [hbody, h1, h2, h3]
  apply String.ext
  simp [String.data_join, List.intercalate, Chunk.bytes]

/-- The amended C13 at the example request with the connector that returns no row. -/
theorem handleRequest_empty_result_bytes_witness :
    bytesOf exampleEncoder
        (handleRequest { connector := emptyConnector } [] exampleRequest exampleSchema) =
      "\x7b\"data\": [],\"draw\": " ++ toString exampleRequest.Draw ++ ", \"recordsTotal\": " ++
        toString (7 : Int) ++ ",\"recordsFiltered\": " ++ toString (0 : Int) ++ "\x7d" :=
  handleRequest_empty_result_bytes exampleEncoder { connector := emptyConnector }
    exampleRequest exampleSchema 7 0 (by decide) rfl

/-! ### The draw -/

/-- The chunks of a row carry no draw. -/
theorem rowChunks_withDraw (d : Int) (columns : List config.TableSchemaColumn)
    (columnData : Row) :
    (rowChunks columns columnData).map (Chunk.withDraw d) = rowChunks columns columnData := by
  obtain ⟨chunks, hw, _, hfilter⟩ := writeRow_chunks columns columnData
  have hbody : rowChunks columns columnData = chunks := by
    unfold rowChunks
    rw [hw [], body_append_writes]
    rfl
  rw [hbody]
  have hall : ∀ c ∈ chunks, Chunk.withDraw d c = c := by
    intro c hc
    by_cases hcomma : c = Chunk.lit ","
    · rw [hcomma]
      rfl
    · have hmem : c ∈ chunks.filter (fun c => c != Chunk.lit ",") := by
        simp [List.mem_filter, hc, hcomma]
      rw [hfilter] at hmem
      simp only [List.mem_append, List.mem_singleton, List.mem_flatMap, List.mem_cons,
        List.not_mem_nil, or_false] at hmem
      rcases hmem with (rfl | ⟨col, _, rfl | rfl | rfl⟩) | rfl <;> rfl
  calc chunks.map (Chunk.withDraw d) = chunks.map id := List.map_congr_left hall
    _ = chunks := List.map_id chunks

/-- The rows in sequence, separated by commas, carry no draw. -/
theorem intercalate_rows_withDraw (d : Int) (columns : List config.TableSchemaColumn) :
    ∀ rows : List Row,
      (List.intercalate [Chunk.lit ","] (rows.map (rowChunks columns))).map
          (Chunk.withDraw d) =
        List.intercalate [Chunk.lit ","] (rows.map (rowChunks columns))
  | [] => by simp [List.intercalate]
  | [row] => by simp [List.intercalate, rowChunks_withDraw]
  | row :: next :: rows => by
    have ih := intercalate_rows_withDraw d columns (next :: rows)
    simp only [List.intercalate, List.map_cons, List.intersperse, List.flatten_cons,
      List.map_append] at ih ⊢
    rw [ih, rowChunks_withDraw]
    rfl

/-- The validator treats two draws of the same sign alike. -/
theorem ValidateDataRequest_draw (dataRequest : DataRequest) (d : Int)
    (hsign : d < 0 ↔ dataRequest.Draw < 0) :
    ValidateDataRequest { dataRequest with Draw := d } = ValidateDataRequest dataRequest := by
  unfold ValidateDataRequest
  by_cases h : dataRequest.Draw < 0
  · simp [h, hsign.mpr h]
  · have hd : ¬ d < 0 := fun hd => h (hsign.mp hd)
    simp [h, hd]

/-- Replacing the draw changes neither the stages nor the status codes of a record. -/
theorem stagesOf_statusCodes_withDraw (d : Int) :
    ∀ w : World, stagesOf (w.map (Event.withDraw d)) = stagesOf w ∧
      statusCodes (w.map (Event.withDraw d)) = statusCodes w
  | [] => ⟨rfl, rfl⟩
  | e :: w => by
    obtain ⟨h1, h2⟩ := stagesOf_statusCodes_withDraw d w
    simp only [stagesOf, statusCodes] at h1 h2 ⊢
    cases e <;> simp [List.filterMap_cons, Event.withDraw, Event.stage, h1, h2]

/-- Replacing the draw leaves resolver calls as they are. -/
theorem map_withDraw_resolver_calls (d : Int) (paths : List String) :
    (paths.map Event.Column).map (Event.withDraw d) = paths.map Event.Column := by
  induction paths with
  | nil => rfl
  | cons p paths ih => simp [Event.withDraw]

/-- Replacing the draw in a record of writes replaces it in the chunks. -/
theorem map_withDraw_writes (d : Int) (chunks : List Chunk) :
    (chunks.map Event.Write).map (Event.withDraw d) =
      (chunks.map (Chunk.withDraw d)).map Event.Write := by
  induction chunks with
  | nil => rfl
  | cons c chunks ih => simp [Event.withDraw]

/-- The claim of C14 fails for the example request and the same request with draw -1:
the first passes all six stages and no status code is written, the second is rejected
by the validator with the status 400 and the message of the draw check. -/
theorem handleRequest_negative_draw_rejected :
    negativeDrawRequest = { exampleRequest with Draw := -1 } ∧
    stagesOf (handleRequest { connector := exampleConnector } [] exampleRequest
      exampleSchema) = pipeline ∧
    statusCodes (handleRequest { connector := exampleConnector } [] exampleRequest
      exampleSchema) = [] ∧
    stagesOf (handleRequest { connector := exampleConnector } [] negativeDrawRequest
      exampleSchema) = [Stage.Validator] ∧
    statusCodes (handleRequest { connector := exampleConnector } [] negativeDrawRequest
      exampleSchema) = [400] ∧
    body (handleRequest { connector := exampleConnector } [] negativeDrawRequest
      exampleSchema) = [Chunk.error errDraw (-1)] := by
  refine ⟨?_, ?_, ?_, ?_, ?_, ?_⟩ <;> decide

/-- C14 (amended): the draw is checked for its sign only. For a request and the same
request with another draw of the same sign (both negative or both non-negative),
`handleRequest` leaves the same record but for the echoed draw: the same stages, the
same resolver and connector calls, the same status codes, and the same chunks with the
other draw in the error envelope or in the draw field. -/
theorem handleRequest_draw_echo (th : tableauxServerWrapper) (dataRequest : DataRequest)
    (schema : config.ResolvedTableSchema) (d : Int)
    (hsign : d < 0 ↔ dataRequest.Draw < 0) :
    handleRequest th [] { dataRequest with Draw := d } schema =
      (handleRequest th [] dataRequest schema).map (Event.withDraw d) ∧
    stagesOf (handleRequest th [] { dataRequest with Draw := d } schema) =
      stagesOf (handleRequest th [] dataRequest schema) ∧
    statusCodes (handleRequest th [] { dataRequest with Draw := d } schema) =
      statusCodes (handleRequest th [] dataRequest schema) := by
  have key : handleRequest th [] { dataRequest with Draw := d } schema =
      (handleRequest th [] dataRequest schema).map (Event.withDraw d) := by
    have hv := ValidateDataRequest_draw dataRequest d hsign
    have hc : MapDataRequestColumns { dataRequest with Draw := d } schema [] =
        MapDataRequestColumns dataRequest schema [] := rfl
    have ho : MapDataRequestOrders { dataRequest with Draw := d } schema [] =
        MapDataRequestOrders dataRequest schema [] := rfl
    have ha : connectorArgs { dataRequest with Draw := d } schema =
        connectorArgs dataRequest schema := rfl
    rw [handleRequest_record, handleRequest_record, hv, hc, ho, ha]
    cases ValidateDataRequest dataRequest with
    | some err => rfl
    | none =>
      cases (MapDataRequestColumns dataRequest schema []).1 with
      | error err =>
        simp only [List.map_append, map_withDraw_resolver_calls, List.map_cons, List.map_nil,
          Event.withDraw, Chunk.withDraw]
      | ok columns =>
        cases (MapDataRequestOrders dataRequest schema []).1 with
        | error err =>
          simp only [List.map_append, map_withDraw_resolver_calls, List.map_cons,
            List.map_nil, Event.withDraw, Chunk.withDraw]
        | ok orders =>
          cases th.connector.ValidateRequest (connectorArgs dataRequest schema) with
          | some valErr =>
            simp only [List.map_append, map_withDraw_resolver_calls, List.map_cons,
              List.map_nil, Event.withDraw]
          | none =>
            cases th.connector.FetchData (connectorArgs dataRequest schema) with
            | error err =>
              simp only [List.map_append, map_withDraw_resolver_calls, List.map_cons,
                List.map_nil, Event.withDraw, Chunk.withDraw]
            | ok fetched =>
              obtain ⟨result, totalCount, filteredCount⟩ := fetched
              have hrows := intercalate_rows_withDraw d
                (connectorArgs dataRequest schema).columns result
              simp only [List.map_append, map_withDraw_resolver_calls, map_withDraw_writes,
                List.map_cons, List.map_nil, Event.withDraw, Chunk.withDraw, hrows]
  refine ⟨key, ?_, ?_⟩
  · rw [key]
    exact (stagesOf_statusCodes_withDraw d _).1
  · rw [key]
    exact (stagesOf_statusCodes_withDraw d _).2

/-- The amended C14 at the example request (draw 5) and the draw 9. -/
theorem handleRequest_draw_echo_witness :
    handleRequest { connector := exampleConnector } [] { exampleRequest with Draw := 9 }
        exampleSchema =
      (handleRequest { connector := exampleConnector } [] exampleRequest exampleSchema).map
        (Event.withDraw 9) :=
  (handleRequest_draw_echo { connector := exampleConnector } exampleRequest exampleSchema 9
    (by decide)).1

/-! ### The connector calls -/

/-- The connector calls of two records in sequence. -/
theorem connectorCalls_append (w1 w2 : World) :
    connectorCalls (w1 ++ w2) = connectorCalls w1 ++ connectorCalls w2 := by
  simp [connectorCalls, List.filter_append]

/-- Calls of the resolver are no connector calls. -/
theorem connectorCalls_resolver_calls (paths : List String) :
    connectorCalls (paths.map Event.Column) = [] := by
  induction paths with
  | nil => rfl
  | cons p paths ih => simp [connectorCalls, List.filter_cons]

/-- Writes are no connector calls. -/
theorem connectorCalls_writes (chunks : List Chunk) :
    connectorCalls (chunks.map Event.Write) = [] := by
  induction chunks with
  | nil => rfl
  | cons c chunks ih => simp [connectorCalls, List.filter_cons]

/-- The connector calls of a record by its first event. -/
theorem connectorCalls_cons (e : Event) (w : World) :
    connectorCalls (e :: w) =
      (match e with
        | .ValidateRequest _ => [e]
        | .FetchData _ => [e]
        | _ => []) ++ connectorCalls w := by
  cases e <;> simp [connectorCalls, List.filter_cons]

/-- The empty record holds no connector call. -/
theorem connectorCalls_nil : connectorCalls [] = [] := rfl

/-- C15: the arguments of the connector calls are the mapped columns, the schema, the
mapped filters, the mapped orders, the request's global search value and locale, and
the page size 10 and offset 0. When the validator and the mappings succeed,
`handleRequest` calls `ValidateRequest` with them and, if that succeeds, `FetchData` with
the same ones; otherwise it calls neither. Two valid requests that differ only in start
and length leave the same record. -/
theorem handleRequest_connector_calls (th : tableauxServerWrapper)
    (dataRequest : DataRequest) (schema : config.ResolvedTableSchema) :
    ((connectorArgs dataRequest schema).schema = schema ∧
      (connectorArgs dataRequest schema).globalSearch = dataRequest.Search.Value ∧
      (connectorArgs dataRequest schema).locale = dataRequest.Locale ∧
      (connectorArgs dataRequest schema).limit = 10 ∧
      (connectorArgs dataRequest schema).offset = 0) ∧
    (∀ columns, (MapDataRequestColumns dataRequest schema []).1 = .ok columns →
      (connectorArgs dataRequest schema).columns = columns) ∧
    (∀ filters, MapDataRequestFilters dataRequest = .ok filters →
      (connectorArgs dataRequest schema).filters = filters) ∧
    (∀ orders, (MapDataRequestOrders dataRequest schema []).1 = .ok orders →
      (connectorArgs dataRequest schema).orders = orders) ∧
    connectorCalls (handleRequest th [] dataRequest schema) =
      (if stageFails th dataRequest schema Stage.Validator ||
          stageFails th dataRequest schema Stage.ColumnMapping ||
          stageFails th dataRequest schema Stage.FilterMapping ||
          stageFails th dataRequest schema Stage.OrderMapping then []
        else if stageFails th dataRequest schema Stage.ConnectorValidateRequest then
          [Event.ValidateRequest (connectorArgs dataRequest schema)]
        else
          [Event.ValidateRequest (connectorArgs dataRequest schema),
            Event.FetchData (connectorArgs dataRequest schema)]) ∧
    (∀ start length : Int, ValidateDataRequest dataRequest = none →
      ValidateDataRequest { dataRequest with Start := start, Length := length } = none →
      handleRequest th [] { dataRequest with Start := start, Length := length } schema =
        handleRequest th [] dataRequest schema) := by
  refine ⟨⟨rfl, rfl, rfl, rfl, rfl⟩, ?_, ?_, ?_, ?_, ?_⟩
  · intro columns h
    simp [connectorArgs, h, okOr]
  · intro filters h
    simp [connectorArgs, h, okOr]
  · intro orders h
    simp [connectorArgs, h, okOr]
  · rw [handleRequest_record]
    cases hv : ValidateDataRequest dataRequest with
    | some err => simp [connectorCalls_cons, connectorCalls_nil, stageFails, hv]
    | none =>
      cases hc : (MapDataRequestColumns dataRequest schema []).1 with
      | error err =>
        simp [connectorCalls_append, connectorCalls_cons, connectorCalls_nil,
          connectorCalls_resolver_calls, stageFails, hv, hc, Except.isOk, Except.toBool]
      | ok columns =>
        cases ho : (MapDataRequestOrders dataRequest schema []).1 with
        | error err =>
          simp [connectorCalls_append, connectorCalls_cons, connectorCalls_nil,
            connectorCalls_resolver_calls, stageFails, hv, hc, ho, Except.isOk,
            Except.toBool]
        | ok orders =>
          cases hcv : th.connector.ValidateRequest (connectorArgs dataRequest schema) with
          | some valErr =>
            simp [connectorCalls_append, connectorCalls_cons, connectorCalls_nil,
              connectorCalls_resolver_calls, stageFails, hv, hc, ho, hcv,
              MapDataRequestFilters, Except.isOk, Except.toBool]
          | none =>
            cases hf : th.connector.FetchData (connectorArgs dataRequest schema) with
            | error err =>
              simp [connectorCalls_append, connectorCalls_cons, connectorCalls_nil,
                connectorCalls_resolver_calls, stageFails, hv, hc, ho, hcv,
                MapDataRequestFilters, Except.isOk, Except.toBool]
            | ok fetched =>
              simp [connectorCalls_append, connectorCalls_cons, connectorCalls_nil,
                connectorCalls_resolver_calls, connectorCalls_writes, stageFails, hv, hc, ho,
                hcv, MapDataRequestFilters, Except.isOk, Except.toBool]
  · intro start length hv hv1
    rw [handleRequest_record, handleRequest_record, hv, hv1]
    rfl

/-- C15 at the example request and the same request with start 20 and length 50: both
are valid and leave the same record, connector calls included. -/
theorem handleRequest_connector_calls_witness :
    handleRequest { connector := exampleConnector } []
        { exampleRequest with Start := 20, Length := 50 } exampleSchema =
      handleRequest { connector := exampleConnector } [] exampleRequest exampleSchema :=
  (handleRequest_connector_calls { connector := exampleConnector } exampleRequest
    exampleSchema).2.2.2.2.2 20 50 (by decide) (by decide)

/-! ### Status codes and envelopes -/

/-- The status codes of two records in sequence. -/
theorem statusCodes_append (w1 w2 : World) :
    statusCodes (w1 ++ w2) = statusCodes w1 ++ statusCodes w2 := by
  simp [statusCodes, List.filterMap_append]

/-- The status codes of a record by its first event. -/
theorem statusCodes_cons (e : Event) (w : World) :
    statusCodes (e :: w) =
      (match e with
        | .WriteHeader statusCode => [statusCode]
        | _ => []) ++ statusCodes w := by
  cases e <;> simp [statusCodes, List.filterMap_cons]

/-- The empty record holds no status code. -/
theorem statusCodes_nil : statusCodes [] = [] := rfl

/-- Calls of the resolver write no status code. -/
theorem statusCodes_resolver_calls (paths : List String) :
    statusCodes (paths.map Event.Column) = [] := by
  induction paths with
  | nil => rfl
  | cons p paths ih => simp [statusCodes, List.filterMap_cons]

/-- Writes of chunks write no status code. -/
theorem statusCodes_writes (chunks : List Chunk) :
    statusCodes (chunks.map Event.Write) = [] := by
  induction chunks with
  | nil => rfl
  | cons c chunks ih => simp [statusCodes, List.filterMap_cons]

/-- The body of a record by its first event. -/
theorem body_cons (e : Event) (w : World) :
    body (e :: w) =
      (match e with
        | .Write chunk => [chunk]
        | _ => []) ++ body w := by
  cases e <;> simp [body, List.filterMap_cons]

/-- The empty record has no body. -/
theorem body_nil : body [] = [] := rfl

/-- The method `handleRequest` appends to the record it is given what it leaves on the
empty record. -/
theorem handleRequest_frame (th : tableauxServerWrapper) (w : World)
    (dataRequest : DataRequest) (schema : config.ResolvedTableSchema) :
    handleRequest th w dataRequest schema = w ++ handleRequest th [] dataRequest schema := by
  rw [handleRequest_record th w, handleRequest_record th []]
  simp

/-- When a stage fails, `handleRequest` writes the status 400 once, and its body is
empty or the one error envelope with the request's draw. -/
theorem handleRequest_failure (th : tableauxServerWrapper) (dataRequest : DataRequest)
    (schema : config.ResolvedTableSchema)
    (h : pipeline.any (stageFails th dataRequest schema) = true) :
    statusCodes (handleRequest th [] dataRequest schema) = [400] ∧
    (body (handleRequest th [] dataRequest schema) = [] ∨
      ∃ message, body (handleRequest th [] dataRequest schema) =
        [Chunk.error message dataRequest.Draw]) := by
  rw [handleRequest_record]
  cases hv : ValidateDataRequest dataRequest with
  | some err => simp [statusCodes_cons, statusCodes_nil, body_cons, body_nil]
  | none =>
    cases hc : (MapDataRequestColumns dataRequest schema []).1 with
    | error err =>
      simp [statusCodes_append, statusCodes_cons, statusCodes_nil, statusCodes_resolver_calls,
        body_append, body_cons, body_nil, body_resolver_calls]
    | ok columns =>
      cases ho : (MapDataRequestOrders dataRequest schema []).1 with
      | error err =>
        simp [statusCodes_append, statusCodes_cons, statusCodes_nil,
          statusCodes_resolver_calls, body_append, body_cons, body_nil, body_resolver_calls]
      | ok orders =>
        cases hcv : th.connector.ValidateRequest (connectorArgs dataRequest schema) with
        | some valErr =>
          simp [statusCodes_append, statusCodes_cons, statusCodes_nil,
            statusCodes_resolver_calls, body_append, body_cons, body_nil,
            body_resolver_calls]
        | none =>
          cases hf : th.connector.FetchData (connectorArgs dataRequest schema) with
          | error err =>
            simp [statusCodes_append, statusCodes_cons, statusCodes_nil,
              statusCodes_resolver_calls, body_append, body_cons, body_nil,
              body_resolver_calls]
          | ok fetched =>
            have hnone : pipeline.any (stageFails th dataRequest schema) = false :=
              (no_stage_fails_iff th dataRequest schema).mpr
                ⟨hv, ⟨columns, hc⟩, ⟨orders, ho⟩, hcv, ⟨fetched, hf⟩⟩
            rw [hnone] at h
            cases h

/-- A function that maps a list to itself fixes each of its elements. -/
theorem map_eq_self_pointwise {α : Type} (f : α → α) :
    ∀ l : List α, l.map f = l → ∀ x ∈ l, f x = x
  | [], _, x, hx => by cases hx
  | a :: l, h, x, hx => by
    simp only [List.map_cons, List.cons.injEq] at h
    rcases List.mem_cons.mp hx with rfl | hx
    · exact h.1
    · exact map_eq_self_pointwise f l h.2 x hx

/-- No error envelope is among the chunks of the rows. -/
theorem intercalate_rows_no_error (columns : List config.TableSchemaColumn)
    (rows : List Row) (message : String) (draw : Int) :
    Chunk.error message draw ∉
      List.intercalate [Chunk.lit ","] (rows.map (rowChunks columns)) := by
  intro hmem
  have hfix := map_eq_self_pointwise (Chunk.withDraw (draw + 1)) _
    (intercalate_rows_withDraw (draw + 1) columns rows) _ hmem
  simp only [Chunk.withDraw, Chunk.error.injEq, true_and] at hfix
  omega

/-- When no stage fails, `handleRequest` writes no status code. -/
theorem handleRequest_success_statusCodes (th : tableauxServerWrapper)
    (dataRequest : DataRequest) (schema : config.ResolvedTableSchema)
    (h : pipeline.any (stageFails th dataRequest schema) = false) :
    statusCodes (handleRequest th [] dataRequest schema) = [] := by
  obtain ⟨_, _, _, _, ⟨fetched, hf⟩⟩ := (no_stage_fails_iff th dataRequest schema).mp h
  obtain ⟨result, totalCount, filteredCount⟩ := fetched
  rw [handleRequest_success_record th [] dataRequest schema result totalCount
    filteredCount h hf]
  simp [statusCodes_append, statusCodes_cons, statusCodes_nil, statusCodes_resolver_calls,
    statusCodes_writes]

/-- C16: when a stage fails, `handleRequest` writes the status 400 and every chunk of
its body is an error envelope, so no chunk of a data envelope is written; when no stage
fails, it writes no status code and no error envelope, `FetchData` has returned without
error, and all writes come after the call of `FetchData`. -/
theorem handleRequest_no_partial_success (th : tableauxServerWrapper)
    (dataRequest : DataRequest) (schema : config.ResolvedTableSchema) :
    (pipeline.any (stageFails th dataRequest schema) = true →
      statusCodes (handleRequest th [] dataRequest schema) = [400] ∧
      (∀ c ∈ body (handleRequest th [] dataRequest schema),
        ∃ message draw, c = Chunk.error message draw) ∧
      Chunk.lit "\x7b\"data\": [" ∉ body (handleRequest th [] dataRequest schema)) ∧
    (pipeline.any (stageFails th dataRequest schema) = false →
      statusCodes (handleRequest th [] dataRequest schema) = [] ∧
      (∀ c ∈ body (handleRequest th [] dataRequest schema),
        ∀ message draw, c ≠ Chunk.error message draw) ∧
      (th.connector.FetchData (connectorArgs dataRequest schema)).isOk = true ∧
      ∃ (pre : World) (chunks : List Chunk), handleRequest th [] dataRequest schema =
          pre ++ [Event.FetchData (connectorArgs dataRequest schema)] ++
            chunks.map Event.Write ∧
        body pre = [] ∧ statusCodes pre = [] ∧
        chunks.head? = some (Chunk.lit "\x7b\"data\": [")) := by
  constructor
  · intro h
    obtain ⟨hstatus, hbody⟩ := handleRequest_failure th dataRequest schema h
    refine ⟨hstatus, ?_, ?_⟩
    · intro c hc
      rcases hbody with hnil | ⟨message, hmsg⟩
      · rw [hnil] at hc
        cases hc
      · rw [hmsg] at hc
        exact ⟨message, dataRequest.Draw, List.mem_singleton.mp hc⟩
    · intro hc
      rcases hbody with hnil | ⟨message, hmsg⟩
      · rw [hnil] at hc
        cases hc
      · rw [hmsg] at hc
        cases List.mem_singleton.mp hc
  · intro h
    obtain ⟨_, _, _, _, ⟨fetched, hf⟩⟩ := (no_stage_fails_iff th dataRequest schema).mp h
    obtain ⟨result, totalCount, filteredCount⟩ := fetched
    have hrec := handleRequest_success_record th [] dataRequest schema result totalCount
      filteredCount h hf
    have hbody := handleRequest_success_body th dataRequest schema result totalCount
      filteredCount h hf
    refine ⟨handleRequest_success_statusCodes th dataRequest schema h, ?_, ?_, ?_⟩
    · intro c hc message draw heq
      rw [hbody, heq] at hc
      simp only [List.mem_append, List.mem_singleton, List.mem_cons, List.not_mem_nil,
        or_false] at hc
      rcases hc with (hc | hc) | hc
      · cases hc
      · exact intercalate_rows_no_error _ _ _ _ hc
      · rcases hc with hc | hc | hc | hc <;> cases hc
    · rw [hf]
      rfl
    · refine ⟨[Event.Call Stage.Validator, Event.Call Stage.ColumnMapping] ++
        (resolverCalls (MapDataRequestColumns dataRequest schema []).2).map Event.Column ++
        ([Event.Call Stage.FilterMapping, Event.Call Stage.OrderMapping] ++
        (resolverCalls (MapDataRequestOrders dataRequest schema []).2).map Event.Column ++
        [Event.ValidateRequest (connectorArgs dataRequest schema)]),
        [Chunk.lit "\x7b\"data\": ["] ++
          List.intercalate [Chunk.lit ","]
            (result.map (rowChunks (connectorArgs dataRequest schema).columns)) ++
          [Chunk.lit "],", Chunk.draw dataRequest.Draw, Chunk.recordsTotal totalCount,
            Chunk.recordsFiltered filteredCount], ?_, ?_, ?_, ?_⟩
      · rw [hrec]
        simp
      · simp [body_append, body_cons, body_nil, body_resolver_calls]
      · simp [statusCodes_append, statusCodes_cons, statusCodes_nil,
          statusCodes_resolver_calls]
      · simp

/-- C16 at the example request: with the connector whose `FetchData` fails the status
400 is written, with the connector that returns two rows no status code is written. -/
theorem handleRequest_no_partial_success_witness :
    statusCodes (handleRequest { connector := failingConnector } [] exampleRequest
      exampleSchema) = [400] ∧
    statusCodes (handleRequest { connector := exampleConnector } [] exampleRequest
      exampleSchema) = [] :=
  ⟨((handleRequest_no_partial_success { connector := failingConnector } exampleRequest
      exampleSchema).1 (by decide)).1,
    ((handleRequest_no_partial_success { connector := exampleConnector } exampleRequest
      exampleSchema).2 (by decide)).1⟩

/-! ### The entry handlers -/

/-- The status codes that `handleRequest` adds to a record are at most one 400. -/
theorem handleRequest_statusCodes (th : tableauxServerWrapper) (w : World)
    (dataRequest : DataRequest) (schema : config.ResolvedTableSchema) :
    statusCodes (handleRequest th w dataRequest schema) = statusCodes w ++ [400] ∨
    statusCodes (handleRequest th w dataRequest schema) = statusCodes w := by
  rw [handleRequest_frame, statusCodes_append]
  cases h : pipeline.any (stageFails th dataRequest schema) with
  | true =>
    left
    rw [(handleRequest_failure th dataRequest schema h).1]
  | false =>
    right
    rw [handleRequest_success_statusCodes th dataRequest schema h]
    simp

/-- The status codes that `handleRequest` adds to a record: the one status 400 when a
stage fails, none when no stage fails. -/
theorem handleRequest_statusCodes_exact (th : tableauxServerWrapper) (w : World)
    (dataRequest : DataRequest) (schema : config.ResolvedTableSchema) :
    statusCodes (handleRequest th w dataRequest schema) =
      statusCodes w ++
        (if pipeline.any (stageFails th dataRequest schema) = true then [400] else []) := by
  rw [handleRequest_frame, statusCodes_append]
  cases h : pipeline.any (stageFails th dataRequest schema) with
  | true => rw [(handleRequest_failure th dataRequest schema h).1]; simp
  | false => rw [handleRequest_success_statusCodes th dataRequest schema h]; simp

/-- C17: in both `simpleDataHandler` and `dataHandler`, when the schema lookup fails the
record is the content type header, the status 404 and the error envelope with the
message "Unknown schema" and draw 0, and no stage of the pipeline is started. When the
lookup succeeds, every failure writes the status 400 and nothing else does: a body that
does not decode is answered with the status 400 and the envelope "Failed to parse
request", and the status codes of a request that enters the pipeline are the one status
400 when a stage fails and none when no stage fails; the status 404 is never written. -/
theorem handlers_unknown_schema (th : tableauxServerWrapper)
    (decode : String → Except String DataRequest) (req : Request) :
    ((th.schemaMapper.ResolvedSchema req.schema).isOk = false →
      simpleDataHandler th [] req =
        [Event.HeaderAdd "Content-Type" "application/json", Event.WriteHeader 404,
          Event.Write (Chunk.error "Unknown schema" 0)] ∧
      dataHandler th decode [] req =
        [Event.HeaderAdd "Content-Type" "application/json", Event.WriteHeader 404,
          Event.Write (Chunk.error "Unknown schema" 0)] ∧
      stagesOf (simpleDataHandler th [] req) = [] ∧
      stagesOf (dataHandler th decode [] req) = []) ∧
    (∀ schema, th.schemaMapper.ResolvedSchema req.schema = .ok schema →
      statusCodes (simpleDataHandler th [] req) =
        (if pipeline.any (stageFails th (simpleDataHandler.dataRequest schema) schema) = true
          then [400] else []) ∧
      (∀ e, decode req.Body = .error e →
        dataHandler th decode [] req =
          [Event.HeaderAdd "Content-Type" "application/json", Event.WriteHeader 400,
            Event.Write (Chunk.error "Failed to parse request" 0)]) ∧
      (∀ dataRequest, decode req.Body = .ok dataRequest →
        statusCodes (dataHandler th decode [] req) =
          (if pipeline.any (stageFails th dataRequest schema) = true then [400] else []))) ∧
    ((th.schemaMapper.ResolvedSchema req.schema).isOk = true →
      (∀ code ∈ statusCodes (simpleDataHandler th [] req), code = 400) ∧
      (∀ code ∈ statusCodes (dataHandler th decode [] req), code = 400) ∧
      404 ∉ statusCodes (simpleDataHandler th [] req) ∧
      404 ∉ statusCodes (dataHandler th decode [] req)) := by
  have hsimple : ∀ schema, th.schemaMapper.ResolvedSchema req.schema = .ok schema →
      statusCodes (simpleDataHandler th [] req) =
        (if pipeline.any (stageFails th (simpleDataHandler.dataRequest schema) schema) = true
          then [400] else []) := by
    intro schema hs
    simp only [simpleDataHandler, hs]
    rw [handleRequest_statusCodes_exact]
    simp [statusCodes_cons, statusCodes_nil]
  have hparse : ∀ schema, th.schemaMapper.ResolvedSchema req.schema = .ok schema →
      ∀ e, decode req.Body = .error e →
      dataHandler th decode [] req =
        [Event.HeaderAdd "Content-Type" "application/json", Event.WriteHeader 400,
          Event.Write (Chunk.error "Failed to parse request" 0)] := by
    intro schema hs e hd
    simp [dataHandler, hs, hd, writeErrorResponse, StatusBadRequest]
  have hdata : ∀ schema, th.schemaMapper.ResolvedSchema req.schema = .ok schema →
      ∀ dataRequest, decode req.Body = .ok dataRequest →
      statusCodes (dataHandler th decode [] req) =
        (if pipeline.any (stageFails th dataRequest schema) = true then [400] else []) := by
    intro schema hs dataRequest hd
    simp only [dataHandler, hs, hd]
    rw [handleRequest_statusCodes_exact]
    simp [statusCodes_cons, statusCodes_nil]
  have hall : (th.schemaMapper.ResolvedSchema req.schema).isOk = true →
      (∀ code ∈ statusCodes (simpleDataHandler th [] req), code = 400) ∧
      (∀ code ∈ statusCodes (dataHandler th decode [] req), code = 400) := by
    intro h
    cases hs : th.schemaMapper.ResolvedSchema req.schema with
    | error e => simp [hs, Except.isOk, Except.toBool] at h
    | ok schema =>
      constructor
      · intro code hcode
        rw [hsimple schema hs] at hcode
        split_ifs at hcode
        · simpa using hcode
        · cases hcode
      · intro code hcode
        cases hd : decode req.Body with
        | error e =>
          rw [hparse schema hs e hd] at hcode
          simpa [statusCodes_cons, statusCodes_nil] using hcode
        | ok dataRequest =>
          rw [hdata schema hs dataRequest hd] at hcode
          split_ifs at hcode
          · simpa using hcode
          · cases hcode
  refine ⟨?_, fun schema hs => ⟨hsimple schema hs, hparse schema hs, hdata schema hs⟩, ?_⟩
  · intro h
    cases hs : th.schemaMapper.ResolvedSchema req.schema with
    | ok schema => simp [hs, Except.isOk, Except.toBool] at h
    | error e =>
      simp [simpleDataHandler, dataHandler, hs, writeErrorResponse, StatusNotFound,
        stagesOf_cons, stagesOf_nil, Event.stage]
  · intro h
    obtain ⟨h1, h2⟩ := hall h
    refine ⟨h1, h2, ?_, ?_⟩
    · intro hmem
      have := h1 404 hmem
      omega
    · intro hmem
      have := h2 404 hmem
      omega

/-- C17 at the example mapper, which knows the schema "people" only: the schema
"nowhere" is answered with the status 404 and the envelope "Unknown schema"; for
"people", a body that does not decode is answered with the status 400 and the envelope
"Failed to parse request", the request of `simpleDataHandler`, whose order column the
schema does not know, with the status 400, and the example request, on which no stage
fails, with no status code. -/
theorem handlers_unknown_schema_witness :
    dataHandler { connector := exampleConnector, schemaMapper := exampleSchemaMapper }
        exampleDecode [] { schema := "nowhere", Body := "request" } =
      [Event.HeaderAdd "Content-Type" "application/json", Event.WriteHeader 404,
        Event.Write (Chunk.error "Unknown schema" 0)] ∧
    dataHandler { connector := exampleConnector, schemaMapper := exampleSchemaMapper }
        exampleDecode [] { schema := "people", Body := "\x7b" } =
      [Event.HeaderAdd "Content-Type" "application/json", Event.WriteHeader 400,
        Event.Write (Chunk.error "Failed to parse request" 0)] ∧
    statusCodes
      (simpleDataHandler { connector := exampleConnector, schemaMapper := exampleSchemaMapper }
        [] { schema := "people", Body := "" }) = [400] ∧
    statusCodes
      (dataHandler { connector := exampleConnector, schemaMapper := exampleSchemaMapper }
        exampleDecode [] { schema := "people", Body := "request" }) = [] :=
  ⟨((handlers_unknown_schema
      { connector := exampleConnector, schemaMapper := exampleSchemaMapper } exampleDecode
      { schema := "nowhere", Body := "request" }).1 (by decide)).2.1,
    ((handlers_unknown_schema
      { connector := exampleConnector, schemaMapper := exampleSchemaMapper } exampleDecode
      { schema := "people", Body := "\x7b" }).2.1 exampleSchema rfl).2.1
        "unexpected end of JSON input" rfl,
    ((handlers_unknown_schema
      { connector := exampleConnector, schemaMapper := exampleSchemaMapper } exampleDecode
      { schema := "people", Body := "" }).2.1 exampleSchema rfl).1.trans (by decide),
    (((handlers_unknown_schema
      { connector := exampleConnector, schemaMapper := exampleSchemaMapper } exampleDecode
      { schema := "people", Body := "request" }).2.1 exampleSchema rfl).2.2
        exampleRequest rfl).trans (by decide)⟩

/-! ### The commas of `writeRow` -/

/-- C18 at failing inputs: `writeRow` places a comma while the count of written columns
is below the number of entries of the row, not below the number of columns. For the
column "age" and a row with the two entries "age" and "name" it writes a comma after
the last field (the bytes `{"age":36,}`); for the columns "age" and "name" and a row
with the one entry "age" it writes no comma between the two fields; only when the row
has as many entries as there are columns are the commas those of the claim. -/
theorem writeRow_commas_follow_row_size :
    body (writeRow [{ Path := "age" }]
        [("age", Value.int 36), ("name", Value.str "Ada")] []) =
      [Chunk.lit "\x7b", Chunk.key "age", Chunk.lit ":", Chunk.value (Value.int 36),
        Chunk.lit ",", Chunk.lit "\x7d"] ∧
    bytesOf exampleEncoder (writeRow [{ Path := "age" }]
        [("age", Value.int 36), ("name", Value.str "Ada")] []) = "\x7b\"age\":36,\x7d" ∧
    body (writeRow [{ Path := "age" }, { Path := "name" }] [("age", Value.int 36)] []) =
      [Chunk.lit "\x7b", Chunk.key "age", Chunk.lit ":", Chunk.value (Value.int 36),
        Chunk.key "name", Chunk.lit ":", Chunk.value Value.nil, Chunk.lit "\x7d"] ∧
    body (writeRow [{ Path := "age" }, { Path := "name" }]
        [("age", Value.int 36), ("name", Value.str "Ada")] []) =
      [Chunk.lit "\x7b", Chunk.key "age", Chunk.lit ":", Chunk.value (Value.int 36),
        Chunk.lit ",", Chunk.key "name", Chunk.lit ":", Chunk.value (Value.str "Ada"),
        Chunk.lit "\x7d"] := by
  refine ⟨?_, ?_, ?_, ?_⟩ <;> decide

/-! ### The request of `simpleDataHandler` -/

/-- The filter groups of the request columns of `simpleDataHandler`: one per schema
column with the designated path. -/
theorem simpleDataHandler_filters_loop :
    ∀ (columns : List config.TableSchemaColumn) (filterGroups : List datasource.FilterGroup),
      MapDataRequestFilters.loop (simpleDataHandler.requestColumns columns) filterGroups =
        filterGroups ++
          (columns.filter fun c =>
            decide (c.Path = "dosemeter_assignedEmployee_awstEmployeeNumber")).map fun _ =>
            { Column := "dosemeter_assignedEmployee_awstEmployeeNumber",
              Filters := [{ Mode := tableaux.FilterMode.FilterEquals, Value := "MA0680872" }] }
  | [], filterGroups => by simp [simpleDataHandler.requestColumns, MapDataRequestFilters.loop]
  | c :: columns, filterGroups => by
    have ih := simpleDataHandler_filters_loop columns
    simp only [simpleDataHandler.requestColumns] at ih
    by_cases hc : c.Path = "dosemeter_assignedEmployee_awstEmployeeNumber"
    · simp [simpleDataHandler.requestColumns, MapDataRequestFilters.loop, hc, ih,
        datasource.NewFilterGroup, datasource.NewFilter, MapDataRequestFilters.filters]
    · simp [simpleDataHandler.requestColumns, MapDataRequestFilters.loop, hc, ih]

/-- The claim of C19 fails for the example schema, which has no column with the
designated path, and for the schema without columns: for the first the request of
`simpleDataHandler` has no filter at all, and for the second it does not pass
`ValidateDataRequest`. -/
theorem simpleDataHandler_request_without_filter :
    MapDataRequestFilters (simpleDataHandler.dataRequest exampleSchema) = .ok [] ∧
    ValidateDataRequest (simpleDataHandler.dataRequest emptySchema) = some errNoColumns := by
  constructor
  · rfl
  · decide

/-- C19 (amended): the request that `simpleDataHandler` builds has start 0, length 10 and
one request column per schema column in schema order; `MapDataRequestFilters` yields on
it one group, holding one equals-filter, per schema column with the designated path,
so exactly one when the schema has that column once and none when it has none; it has
exactly one order entry, descending; it passes `ValidateDataRequest` exactly when the
schema has a column; and it is the request the handler passes to `handleRequest`. -/
theorem simpleDataHandler_request (schema : config.ResolvedTableSchema) :
    (simpleDataHandler.dataRequest schema).Start = 0 ∧
    (simpleDataHandler.dataRequest schema).Length = 10 ∧
    (simpleDataHandler.dataRequest schema).Columns.map (fun c => c.Name) =
      schema.Columns.map (fun c => c.Path) ∧
    MapDataRequestFilters (simpleDataHandler.dataRequest schema) =
      .ok ((schema.Columns.filter fun c =>
          decide (c.Path = "dosemeter_assignedEmployee_awstEmployeeNumber")).map fun _ =>
        { Column := "dosemeter_assignedEmployee_awstEmployeeNumber",
          Filters := [{ Mode := tableaux.FilterMode.FilterEquals, Value := "MA0680872" }] }) ∧
    ((schema.Columns.filter fun c =>
        decide (c.Path = "dosemeter_assignedEmployee_awstEmployeeNumber")).length = 1 →
      MapDataRequestFilters (simpleDataHandler.dataRequest schema) =
        .ok [{ Column := "dosemeter_assignedEmployee_awstEmployeeNumber",
               Filters := [{ Mode := tableaux.FilterMode.FilterEquals,
                             Value := "MA0680872" }] }]) ∧
    (simpleDataHandler.dataRequest schema).Order =
      [{ Column := "dosemeter_assignedEmployee_dosemeters",
         Dir := tableaux.Order.OrderDesc }] ∧
    (ValidateDataRequest (simpleDataHandler.dataRequest schema) = none ↔
      schema.Columns ≠ []) ∧
    (∀ (th : tableauxServerWrapper) (w : World) (req : Request),
      th.schemaMapper.ResolvedSchema req.schema = .ok schema →
      simpleDataHandler th w req =
        handleRequest th (w ++ [Event.HeaderAdd "Content-Type" "application/json"])
          (simpleDataHandler.dataRequest schema) schema) := by
  have hfilters : MapDataRequestFilters (simpleDataHandler.dataRequest schema) =
      .ok ((schema.Columns.filter fun c =>
          decide (c.Path = "dosemeter_assignedEmployee_awstEmployeeNumber")).map fun _ =>
        { Column := "dosemeter_assignedEmployee_awstEmployeeNumber",
          Filters := [{ Mode := tableaux.FilterMode.FilterEquals, Value := "MA0680872" }] }) := by
    simp [MapDataRequestFilters, simpleDataHandler.dataRequest, simpleDataHandler_filters_loop]
  refine ⟨rfl, rfl, ?_, hfilters, ?_, rfl, ?_, ?_⟩
  · simp only [simpleDataHandler.dataRequest, simpleDataHandler.requestColumns, List.map_map]
    apply List.map_congr_left
    intro c _
    by_cases hc : c.Path = "dosemeter_assignedEmployee_awstEmployeeNumber" <;> simp [hc]
  · intro hone
    rw [hfilters]
    obtain ⟨c, hc⟩ := List.length_eq_one.mp hone
    rw [hc]
    rfl
  · rw [ValidateDataRequest_valid_iff]
    simp [simpleDataHandler.dataRequest, simpleDataHandler.requestColumns]
  · intro th w req hs
    simp [simpleDataHandler, hs]

/-- The amended C19 at the schema with the designated column: the request has the three
columns of the schema, one filter group on the designated column, and is valid. -/
theorem simpleDataHandler_request_witness :
    MapDataRequestFilters (simpleDataHandler.dataRequest dosemeterSchema) =
      .ok [{ Column := "dosemeter_assignedEmployee_awstEmployeeNumber",
             Filters := [{ Mode := tableaux.FilterMode.FilterEquals,
                           Value := "MA0680872" }] }] ∧
    ValidateDataRequest (simpleDataHandler.dataRequest dosemeterSchema) = none :=
  ⟨(simpleDataHandler_request dosemeterSchema).2.2.2.2.1 (by decide),
    (simpleDataHandler_request dosemeterSchema).2.2.2.2.2.2.1.mpr (by decide)⟩

end tableauxserver
